import Mathlib

/-!
# Cyclic executive of the mbed monitoring node (`src/main.cpp`)

A shallow embedding of the eight tasks and of the tick dispatcher
`CyclicExecutive`, followed by theorems about the schedule, the tick counter,
the error evaluation, the analogue window, the frequency computation, the
shutdown path, the log line and the output lines.

Modelling conventions.

* The global variables of `main.cpp` are the fields of `State`; the pins, the
  LCD and the serial port are append-only logs in the same record, and `trace`
  lists all of their events, with the entries and returns of the task bodies,
  in the order in which they happen.
* `int` is `Int`; `%` is the truncating remainder `cMod`; the two places where a
  32-bit `int` can overflow (`ticks++` and `timer.read_us()*2`) wrap modulo 2^32
  through `wrapInt32`.
* `float` values are rationals. The conversion of the `int` product to the
  `float` field `period` and the `float` division of `measureFrequency` round to
  the nearest `float` (24-bit significand, ties to even) through `roundFloat32`;
  the other `float` values are kept exact.
* Everything a task reads from the hardware during one invocation is a field of
  `Inputs`.
* A task yields an `Outcome`: it returns, it terminates the process (`exit`),
  it is still busy-waiting when the poll budget of the model is used up, or it
  calls `erase` on a past-the-end iterator, where C++ defines no behaviour.
-/

namespace CyclicExec

/-! ## Machine arithmetic -/

/-- C++ `%` on `int`: the remainder of the division that truncates toward zero. -/
def cMod (a b : Int) : Int := Int.tmod a b

/-- Value held by a 32-bit two's-complement `int` after wrap-around modulo 2^32. -/
def wrapInt32 (x : Int) : Int := (x + 2147483648) % 4294967296 - 2147483648

/-- Conversion of a `float` to `int`: the fractional part is discarded
(truncation toward zero). -/
def floatToInt (q : ℚ) : Int := if 0 ≤ q then ⌊q⌋ else -⌊-q⌋

/-! ## Data model -/

/-- The eight task bodies of `main.cpp`. -/
inductive Task where
  | measureFrequency
  | readDigitalInput
  | outputWatchdog
  | readAnalogueInput
  | display
  | errorCodes
  | log
  | checkShutdown
  deriving DecidableEq, Repr

/-- One call on the LCD object `lcd`. -/
inductive LcdOp where
  | cls
  | locate (row col : Int)
  | print (text : String)
  deriving DecidableEq, Repr

/-- One event on the output side: a write to `watchdog`, a write to
`executionPulse`, or a blocking `wait_ms`. -/
inductive PinEvent where
  | watchdog (v : Int)
  | executionPulse (v : Int)
  | waitMs (ms : Nat)
  deriving DecidableEq, Repr

/-- One entry of the chronological trace: a task body is entered, a task body
returns, a pin event, a call on the LCD, or a string sent to the serial port. -/
inductive Event where
  | enter (t : Task)
  | leave (t : Task)
  | pin (e : PinEvent)
  | lcd (op : LcdOp)
  | serial (text : String)
  deriving DecidableEq, Repr

/-- The globals of `main.cpp` (lines 46-77), the two output pins, and the output
logs. `calls` is instrumentation: every task body appends its own name on
entry, so the field lists the task bodies entered so far, oldest first.
`trace` is instrumentation too: it lists the entries and returns of task bodies
together with every pin, LCD and serial event, in the order of execution. -/
structure State where
  period : ℚ
  frequency : Int
  switch_1 : Int
  analogue_in_1 : ℚ
  analogue_in_2 : ℚ
  average_analogue_in_1 : ℚ
  average_analogue_in_2 : ℚ
  analog1 : List ℚ
  analog2 : List ℚ
  errorCode : Int
  exec1 : ℚ
  exec2 : ℚ
  exec3 : ℚ
  exec4 : ℚ
  exec5 : ℚ
  exec6 : ℚ
  exec7 : ℚ
  ticks : Int
  watchdog : Int
  executionPulse : Int
  pins : List PinEvent
  lcd : List LcdOp
  pc : List String
  calls : List Task
  trace : List Event
  deriving DecidableEq

/-- Everything one invocation of the dispatcher reads from the hardware.
`wave` lists the successive samples of the square-wave pin in the order the
invocation reads them (`true` is level 1); `pollFuel` bounds the number of
samples one busy-wait loop of the model may read; `timerUs` is what
`timer.read_us()` returns after `timer.stop()`; `execUs` is what
`execTimer.read_us()` returns; `infToInt` is what the conversion of an infinite
`float` to `int` yields on the platform (the language does not define it: the
run-time library of the ARM target saturates to 2^31 - 1, an x86 host yields
-2^31). -/
structure Inputs where
  wave : Nat → Bool
  pollFuel : Nat
  timerUs : Int
  execUs : Int
  infToInt : Int
  digIn : Bool
  shutdown : Bool
  input1 : ℚ
  input2 : ℚ

/-- How one invocation of a task (or of the dispatcher) ends; each case carries
the state reached at that point. -/
inductive Outcome where
  | returned (s : State)
  | exited (s : State)
  | stalled (s : State)
  | undefined (s : State)
  deriving DecidableEq

/-- State carried by an outcome. -/
def Outcome.state : Outcome → State
  | .returned s => s
  | .exited s => s
  | .stalled s => s
  | .undefined s => s

/-- Sequencing: the continuation runs only after a normal return. -/
def Outcome.andThen (o : Outcome) (f : State → Outcome) : Outcome :=
  match o with
  | .returned s => f s
  | other => other

/-- Globals as initialised at lines 46-77; both output pins start low. -/
def initState : State where
  period := 0
  frequency := 0
  switch_1 := 0
  analogue_in_1 := 0
  analogue_in_2 := 0
  average_analogue_in_1 := 0
  average_analogue_in_2 := 0
  analog1 := [0, 0, 0, 0]
  analog2 := [0, 0, 0, 0]
  errorCode := 0
  exec1 := 0
  exec2 := 0
  exec3 := 0
  exec4 := 0
  exec5 := 0
  exec6 := 0
  exec7 := 0
  ticks := 0
  watchdog := 0
  executionPulse := 0
  pins := []
  lcd := []
  pc := []
  calls := []
  trace := []

/-- Entry of a task body, recorded in `calls` and in the trace. -/
def State.enter (s : State) (t : Task) : State :=
  { s with calls := s.calls ++ [t], trace := s.trace ++ [Event.enter t] }

/-- Return of a task body, recorded in the trace. -/
def State.leave (s : State) (t : Task) : State :=
  { s with trace := s.trace ++ [Event.leave t] }

/-- Calls on the LCD, in order. -/
def State.lcdWrite (s : State) (ops : List LcdOp) : State :=
  { s with lcd := s.lcd ++ ops, trace := s.trace ++ ops.map Event.lcd }

/-- Events on the output pins, in order. -/
def State.pinWrite (s : State) (es : List PinEvent) : State :=
  { s with pins := s.pins ++ es, trace := s.trace ++ es.map Event.pin }

/-- One `printf` on the serial port. -/
def State.serialWrite (s : State) (text : String) : State :=
  { s with pc := s.pc ++ [text], trace := s.trace ++ [Event.serial text] }

/-- Statement `ticks++` on the 32-bit counter. -/
def incrementTicks (s : State) : State := { s with ticks := wrapInt32 (s.ticks + 1) }

/-- Integer value of a digital pin reading. -/
def pinValue (b : Bool) : Int := if b then 1 else 0

/-! ## Text formatting (`printf`) -/

/-- Conversion `%i`. -/
def fmtInt (n : Int) : String := toString n

/-- Nearest integer, ties to the even neighbour. -/
def roundHalfEven (q : ℚ) : Int :=
  let f := ⌊q⌋
  let r := q - f
  if r < 1 / 2 then f else if 1 / 2 < r then f + 1 else if f % 2 = 0 then f else f + 1

/-- Rounding of an exact value to the nearest `float` (IEEE 754 binary32): the
significand has 24 bits, so in the binade `2^e ≤ |q| < 2^(e+1)` the
representable values are the multiples of `2^(e-23)`, and ties go to the even
multiple. The exponent range is not modelled (the values rounded here lie
between 2^-12 and 2^31). -/
def roundFloat32 (q : ℚ) : ℚ :=
  if q = 0 then 0
  else (roundHalfEven (q / (2 : ℚ) ^ (Int.log 2 |q| - 23)) : ℚ) * (2 : ℚ) ^ (Int.log 2 |q| - 23)

/-- Conversion `%.2f` of an exact value. -/
def fmtFixed2 (q : ℚ) : String :=
  let n := (roundHalfEven (|q| * 100)).toNat
  let body := toString (n / 100) ++ "." ++ toString (n % 100 / 10) ++ toString (n % 10)
  if q < 0 then "-" ++ body else body

/-! ## `std::vector<float>` -/

/-- Call `v.insert(v.begin(), x)`. -/
def vectorInsertBegin (v : List ℚ) (x : ℚ) : List ℚ := x :: v

/-- Iterator `v.end()` as a position: one past the last element. -/
def vectorEnd (v : List ℚ) : Nat := v.length

/-- Call `v.erase(pos)`. The sequence-container requirements of C++ ask for a
valid dereferenceable iterator, that is, one that designates an element
(`pos < v.size()`); the call then removes that element. For any other iterator,
the past-the-end iterator `v.end()` included, the language defines no behaviour
and the result is `none`. -/
def vectorErase (v : List ℚ) (pos : Nat) : Option (List ℚ) :=
  if pos < v.length then some (v.eraseIdx pos) else none

/-- The loop of lines 187-190: `i` runs over `0 .. analog1.size()-1` and indexes
both vectors; an index outside a vector has no defined value. -/
def sumLoop (a1 a2 : List ℚ) : Option (ℚ × ℚ) :=
  (List.range a1.length).foldlM
    (fun (acc : ℚ × ℚ) (i : Nat) =>
      match a1[i]?, a2[i]? with
      | some x, some y => some (acc.1 + x, acc.2 + y)
      | _, _ => none)
    (0, 0)

/-! ## Tasks -/

/-- A busy-wait loop `while(wave==level){}` that reads the samples `i`, `i+1`,
... of the wave pin. The result is the index of the first sample not yet read
once a sample different from `level` has been seen, and `none` when `fuel`
samples were read without seeing one. -/
def awaitChange (wave : Nat → Bool) (level : Bool) : Nat → Nat → Option Nat
  | 0, _ => none
  | fuel + 1, i =>
    if wave i = level then awaitChange wave level fuel (i + 1) else some (i + 1)

/-- Lines 121-131 of `measureFrequency`: the computation after the second edge.
The product `timer.read_us()*2` is an `int` product, rounded to `float` when it
is stored in `period`. `1000000/period` is a `float` division (1000000 is exact
as a `float`), truncated to `int` when it is stored in `frequency`. The source
does not test `period`: when it is zero the quotient is infinite and
`frequency` receives whatever the platform's conversion yields, `infToInt`.
The task then stores its execution time and returns. -/
def storeFrequency (inp : Inputs) (s : State) : Outcome :=
  let s1 := { s with period := roundFloat32 (wrapInt32 (inp.timerUs * 2) : ℚ) }
  .returned
    ({ s1 with
      frequency :=
        if s1.period = 0 then inp.infToInt
        else floatToInt (roundFloat32 (1000000 / s1.period))
      exec1 := (inp.execUs : ℚ) }.leave Task.measureFrequency)

/-- Task 1 (lines 97-132). -/
def measureFrequency (inp : Inputs) (s : State) : Outcome :=
  let s0 := s.enter Task.measureFrequency
  if inp.wave 0 = false then
    match awaitChange inp.wave false inp.pollFuel 1 with
    | none => .stalled s0
    | some i =>
      match awaitChange inp.wave true inp.pollFuel i with
      | none => .stalled s0
      | some _ => storeFrequency inp s0
  else
    match awaitChange inp.wave true inp.pollFuel 1 with
    | none => .stalled s0
    | some i =>
      match awaitChange inp.wave false inp.pollFuel i with
      | none => .stalled s0
      | some _ => storeFrequency inp s0

/-- Task 2 (lines 135-147). -/
def readDigitalInput (inp : Inputs) (s : State) : Outcome :=
  .returned
    ({ s.enter Task.readDigitalInput with
      switch_1 := pinValue inp.digIn
      exec2 := (inp.execUs : ℚ) }.leave Task.readDigitalInput)

/-- Task 3 (lines 150-164). -/
def outputWatchdog (inp : Inputs) (s : State) : Outcome :=
  .returned
    ({ (s.enter Task.outputWatchdog).pinWrite
        [PinEvent.watchdog 1, PinEvent.waitMs 7, PinEvent.watchdog 0] with
      watchdog := 0
      exec3 := (inp.execUs : ℚ) }.leave Task.outputWatchdog)

/-- Lines 183-198 of `readAnalogueInput`: the two sums over the windows, the two
filtered values and the execution time. -/
def averageWindows (inp : Inputs) (s1 : State) : Outcome :=
  match sumLoop s1.analog1 s1.analog2 with
  | none => .undefined s1
  | some (sum1, sum2) =>
    .returned
      ({ s1 with
        average_analogue_in_1 := sum1 / 4 * (33 / 10)
        average_analogue_in_2 := sum2 / 4 * (33 / 10)
        exec4 := (inp.execUs : ℚ) }.leave Task.readAnalogueInput)

/-- Task 4 (lines 167-199). -/
def readAnalogueInput (inp : Inputs) (s : State) : Outcome :=
  let s0 := { s.enter Task.readAnalogueInput with
    analogue_in_1 := inp.input1
    analogue_in_2 := inp.input2 }
  let a1 := vectorInsertBegin s0.analog1 s0.analogue_in_1
  match vectorErase a1 (vectorEnd a1) with
  | none => .undefined { s0 with analog1 := a1 }
  | some w1 =>
    let a2 := vectorInsertBegin s0.analog2 s0.analogue_in_2
    match vectorErase a2 (vectorEnd a2) with
    | none => .undefined { s0 with analog1 := w1, analog2 := a2 }
    | some w2 => averageWindows inp { s0 with analog1 := w1, analog2 := w2 }

/-- Task 5 (lines 202-215). -/
def display (inp : Inputs) (s : State) : Outcome :=
  .returned
    ({ (s.enter Task.display).lcdWrite
        [LcdOp.locate 0 0,
         LcdOp.print ("F:" ++ fmtInt s.frequency ++ "  SW:" ++ fmtInt s.switch_1),
         LcdOp.locate 1 0,
         LcdOp.print (fmtFixed2 s.average_analogue_in_1 ++ "  " ++
           fmtFixed2 s.average_analogue_in_2)] with
      exec5 := (inp.execUs : ℚ) }.leave Task.display)

/-- Task 6 (lines 218-244). -/
def errorCodes (inp : Inputs) (s : State) : Outcome :=
  let s0 := s.enter Task.errorCodes
  let s1 :=
    if s0.switch_1 = 1 ∧ s0.average_analogue_in_1 > s0.average_analogue_in_2 then
      { s0 with errorCode := 3 }
    else
      { s0 with errorCode := 0 }
  let s2 := s1.lcdWrite [LcdOp.locate 0 13]
  let s3 :=
    if s2.errorCode = 3 then
      s2.lcdWrite [LcdOp.print "E:3"]
    else
      s2.lcdWrite [LcdOp.print "E:0"]
  .returned ({ s3 with exec6 := (inp.execUs : ℚ) }.leave Task.errorCodes)

/-- Task 7 (lines 247-261). -/
def log (inp : Inputs) (s : State) : Outcome :=
  .returned
    ({ (s.enter Task.log).serialWrite
        (fmtInt s.frequency ++ ", " ++ fmtInt s.switch_1 ++ ", " ++
          fmtFixed2 s.average_analogue_in_1 ++ ", " ++
          fmtFixed2 s.average_analogue_in_2 ++ " \r\n") with
      exec7 := (inp.execUs : ℚ) }.leave Task.log)

/-- Task 8 (lines 264-276). -/
def checkShutdown (inp : Inputs) (s : State) : Outcome :=
  let s0 := s.enter Task.checkShutdown
  if pinValue inp.shutdown ≠ 0 then
    .exited (s0.lcdWrite [LcdOp.cls, LcdOp.locate 0 0, LcdOp.print "Shutdown"])
  else
    .returned (s0.leave Task.checkShutdown)

/-! ## Dispatcher -/

/-- Assignment `executionPulse = v`. -/
def writeExecutionPulse (v : Int) (s : State) : State :=
  { s.pinWrite [PinEvent.executionPulse v] with executionPulse := v }

/-- The dispatcher (lines 283-330): one `if / else if` chain over `ticks`, then
`ticks++`. -/
def CyclicExecutive (inp : Inputs) (s : State) : Outcome :=
  (if cMod s.ticks 20 = 1 then
    measureFrequency inp s
  else if cMod s.ticks 20 = 2 ∨ cMod s.ticks 20 = 8 ∨ cMod s.ticks 20 = 14 then
    readDigitalInput inp s
  else if cMod s.ticks 80 = 3 then
    outputWatchdog inp s
  else if cMod s.ticks 10 = 5 then
    readAnalogueInput inp s
  else if cMod s.ticks 40 = 7 then
    display inp s
  else if cMod s.ticks 10 = 9 then
    (errorCodes inp (writeExecutionPulse 1 s)).andThen
      (fun s1 => .returned (writeExecutionPulse 0 s1))
  else if cMod s.ticks 100 = 11 then
    log inp s
  else
    checkShutdown inp s).andThen
  (fun s1 => .returned (incrementTicks s1))

/-- Task bodies entered by the one invocation of the dispatcher that starts in
state `s` with the tick counter set to `ticks`. -/
def tasksCalled (inp : Inputs) (s : State) (ticks : Int) : List Task :=
  (CyclicExecutive inp { s with ticks := ticks, calls := [] }).state.calls

/-- Successive invocations of the dispatcher, one per element of `inps`; the
sequence stops at the first invocation that does not return. -/
def runTicks : List Inputs → State → Outcome
  | [], s => .returned s
  | inp :: rest, s => (CyclicExecutive inp s).andThen (runTicks rest)

/-! ## The schedule as stated -/

/-- The seven conditions of the `if / else if` chain (lines 286, 292, 297, 302,
307, 312, 319), in source order, evaluated on one value of `ticks`. -/
def scheduleConditions (ticks : Int) : List Bool :=
  [decide (cMod ticks 20 = 1),
   decide (cMod ticks 20 = 2 ∨ cMod ticks 20 = 8 ∨ cMod ticks 20 = 14),
   decide (cMod ticks 80 = 3),
   decide (cMod ticks 10 = 5),
   decide (cMod ticks 40 = 7),
   decide (cMod ticks 10 = 9),
   decide (cMod ticks 100 = 11)]

/-- Base period of the ticker in milliseconds (`ticker.attach(&CyclicExecutive,
0.050)`, line 345). -/
def tickMs : Nat := 50

/-- One row of the schedule table of the specification (section 4.2): the rule
matches tick `t` when `t mod period` is one of `phases`. -/
structure ScheduleRule where
  period : Nat
  phases : List Nat
  task : Task

/-- The rule list of section 4.2 of the specification, in priority order. This
definition follows the words of the specification, not the source. -/
def specScheduleTable : List ScheduleRule :=
  [⟨20, [1], Task.measureFrequency⟩,
   ⟨20, [2, 8, 14], Task.readDigitalInput⟩,
   ⟨80, [3], Task.outputWatchdog⟩,
   ⟨10, [5], Task.readAnalogueInput⟩,
   ⟨40, [7], Task.display⟩,
   ⟨10, [9], Task.errorCodes⟩,
   ⟨100, [11], Task.log⟩]

/-- Whether a rule of the specification matches tick `t`. -/
def ruleMatches (t : Nat) (r : ScheduleRule) : Bool := decide (t % r.period ∈ r.phases)

/-- Task the specification assigns to tick `t`: the task of the first matching
rule, and the shutdown check when no rule matches. -/
def specTask (t : Nat) : Task :=
  match specScheduleTable.find? (ruleMatches t) with
  | some r => r.task
  | none => Task.checkShutdown

/-- The task `task` is the one entered at tick `t` exactly when `t mod P = R`, and
among any `P` consecutive ticks exactly one enters it. -/
def firesExactlyAt (task : Task) (P R : Nat) : Prop :=
  ∀ (inp : Inputs) (s : State) (t : Nat),
    (tasksCalled inp s (t : Int) = [task] ↔ t % P = R) ∧
    (List.range' t P).countP
      (fun (k : Nat) => decide (tasksCalled inp s (k : Int) = [task])) = 1

/-! ## Observations on one invocation -/

/-- Whether the invocation ended inside a busy-wait loop, the poll budget of the
model being used up. -/
def Outcome.isStalled : Outcome → Bool
  | .stalled _ => true
  | _ => false

/-- Whether a pin event is a write to the `executionPulse` line. -/
def PinEvent.isExecutionPulse : PinEvent → Bool
  | .executionPulse _ => true
  | _ => false

/-- Whether a trace entry is a write to the `executionPulse` line. -/
def Event.isExecutionPulse : Event → Bool
  | .pin (.executionPulse _) => true
  | _ => false

/-- Trace entries produced by the one invocation of the dispatcher that starts in
state `s` with the tick counter set to `ticks`. -/
def traceWritten (inp : Inputs) (s : State) (ticks : Int) : List Event :=
  (CyclicExecutive inp { s with ticks := ticks, trace := [] }).state.trace

/-- Pin events produced by the one invocation of the dispatcher that starts in
state `s` with the tick counter set to `ticks`. -/
def pinsWritten (inp : Inputs) (s : State) (ticks : Int) : List PinEvent :=
  (CyclicExecutive inp { s with ticks := ticks, pins := [] }).state.pins

/-- The wave leaves the level of its entry sample (sample 0) at some later sample
and is back at that level at a sample after that one. -/
def twoEdges (wave : Nat → Bool) : Prop :=
  ∃ i j, 1 ≤ i ∧ i < j ∧ wave i ≠ wave 0 ∧ wave j = wave 0

/-! ## Concrete inputs -/

/-- A square wave that changes level at every sample (low on entry), measured
half-period 500000 us, switch closed, shutdown line low. -/
def inpToggle : Inputs where
  wave := fun n => n % 2 == 1
  pollFuel := 2
  timerUs := 500000
  execUs := 40
  infToInt := 2147483647
  digIn := true
  shutdown := false
  input1 := 1 / 2
  input2 := 1 / 4

/-- The same wave with a measured half-period of 2^30 us. -/
def inpOverflow : Inputs := { inpToggle with timerUs := 1073741824 }

/-- The same wave with a measured half-period of 0 us. -/
def inpZero : Inputs := { inpToggle with timerUs := 0 }

/-- The same wave with a measured half-period of 2^24 + 1 us. -/
def inpRounding : Inputs := { inpToggle with timerUs := 16777217 }

/-- The inputs of `inpZero` on a platform whose conversion of an infinite `float`
to `int` yields -2^31. -/
def inpZeroHost : Inputs := { inpZero with infToInt := -2147483648 }

/-- The inputs of `inpToggle` with the shutdown line asserted. -/
def inpShutdown : Inputs := { inpToggle with shutdown := true }

/-- The start-up state with the readings of the log scenario of the
specification: frequency 50, switch 1, analogue values 1.65 and 0.00. -/
def stateReadings : State :=
  { initState with frequency := 50, switch_1 := 1, average_analogue_in_1 := 33 / 20 }

/-! ## Lemmas on the call log -/

theorem cMod_natCast (t n : Nat) : cMod (t : Int) (n : Int) = ((t % n : Nat) : Int) :=
  (Int.ofNat_tmod t n).symm

theorem cMod_20 (t : Nat) : cMod (t : Int) 20 = ((t % 20 : Nat) : Int) := cMod_natCast t 20

theorem cMod_80 (t : Nat) : cMod (t : Int) 80 = ((t % 80 : Nat) : Int) := cMod_natCast t 80

theorem cMod_10 (t : Nat) : cMod (t : Int) 10 = ((t % 10 : Nat) : Int) := cMod_natCast t 10

theorem cMod_40 (t : Nat) : cMod (t : Int) 40 = ((t % 40 : Nat) : Int) := cMod_natCast t 40

theorem cMod_100 (t : Nat) : cMod (t : Int) 100 = ((t % 100 : Nat) : Int) :=
  cMod_natCast t 100

theorem andThen_state_calls (o : Outcome) (f : State → Outcome)
    (hf : ∀ s, (f s).state.calls = s.calls) :
    (o.andThen f).state.calls = o.state.calls := by
  cases o
  · exact hf _
  all_goals rfl

theorem storeFrequency_calls (inp : Inputs) (s : State) :
    (storeFrequency inp s).state.calls = s.calls := by
  unfold storeFrequency
  dsimp only
  split_ifs <;> rfl

theorem measureFrequency_calls (inp : Inputs) (s : State) :
    (measureFrequency inp s).state.calls = s.calls ++ [Task.measureFrequency] := by
  unfold measureFrequency
  dsimp only
  split_ifs <;> (split <;> [rfl; (split <;> [rfl; exact storeFrequency_calls _ _])])

theorem readDigitalInput_calls (inp : Inputs) (s : State) :
    (readDigitalInput inp s).state.calls = s.calls ++ [Task.readDigitalInput] := rfl

theorem outputWatchdog_calls (inp : Inputs) (s : State) :
    (outputWatchdog inp s).state.calls = s.calls ++ [Task.outputWatchdog] := rfl

theorem readAnalogueInput_calls (inp : Inputs) (s : State) :
    (readAnalogueInput inp s).state.calls = s.calls ++ [Task.readAnalogueInput] := by
  unfold readAnalogueInput averageWindows
  dsimp only
  repeat' split
  all_goals rfl

theorem display_calls (inp : Inputs) (s : State) :
    (display inp s).state.calls = s.calls ++ [Task.display] := rfl

theorem errorCodes_calls (inp : Inputs) (s : State) :
    (errorCodes inp s).state.calls = s.calls ++ [Task.errorCodes] := by
  unfold errorCodes
  dsimp only
  split_ifs <;> rfl

theorem log_calls (inp : Inputs) (s : State) :
    (log inp s).state.calls = s.calls ++ [Task.log] := rfl

theorem checkShutdown_calls (inp : Inputs) (s : State) :
    (checkShutdown inp s).state.calls = s.calls ++ [Task.checkShutdown] := by
  unfold checkShutdown
  dsimp only
  split_ifs <;> rfl

/-- The rule list of the specification, unfolded into a chain of conditions. -/
theorem specTask_eq (t : Nat) :
    specTask t =
      if t % 20 = 1 then Task.measureFrequency
      else if t % 20 = 2 ∨ t % 20 = 8 ∨ t % 20 = 14 then Task.readDigitalInput
      else if t % 80 = 3 then Task.outputWatchdog
      else if t % 10 = 5 then Task.readAnalogueInput
      else if t % 40 = 7 then Task.display
      else if t % 10 = 9 then Task.errorCodes
      else if t % 100 = 11 then Task.log
      else Task.checkShutdown := by
  simp only [specTask, specScheduleTable, List.find?, ruleMatches, List.mem_cons,
    List.mem_singleton, List.not_mem_nil, or_false]
  split_ifs <;> simp_all

/-- One invocation at a non-negative tick appends exactly one entry to the call
log, the task of the specification. -/
theorem CyclicExecutive_calls (inp : Inputs) (s : State) (t : Nat) (h : s.ticks = (t : Int)) :
    (CyclicExecutive inp s).state.calls = s.calls ++ [specTask t] := by
  unfold CyclicExecutive
  rw [andThen_state_calls _ (fun s1 => Outcome.returned (incrementTicks s1)) (fun _ => rfl), h,
    specTask_eq]
  simp only [cMod_20, cMod_80, cMod_10, cMod_40, cMod_100]
  norm_cast
  split_ifs
  · exact measureFrequency_calls inp s
  · exact readDigitalInput_calls inp s
  · exact outputWatchdog_calls inp s
  · exact readAnalogueInput_calls inp s
  · exact display_calls inp s
  · rw [andThen_state_calls _ (fun s1 => Outcome.returned (writeExecutionPulse 0 s1))
      (fun _ => rfl), errorCodes_calls]
    rfl
  · exact log_calls inp s
  · exact checkShutdown_calls inp s

theorem tasksCalled_natCast (inp : Inputs) (s : State) (t : Nat) :
    tasksCalled inp s (t : Int) = [specTask t] := by
  unfold tasksCalled
  rw [CyclicExecutive_calls inp _ t rfl]
  rfl

theorem tasksCalled_iff (inp : Inputs) (s : State) (t : Nat) :
    (tasksCalled inp s (t : Int) = [Task.measureFrequency] ↔ t % 20 = 1) ∧
    (tasksCalled inp s (t : Int) = [Task.readDigitalInput] ↔
      (t % 20 = 2 ∨ t % 20 = 8 ∨ t % 20 = 14)) ∧
    (tasksCalled inp s (t : Int) = [Task.outputWatchdog] ↔ t % 80 = 3) ∧
    (tasksCalled inp s (t : Int) = [Task.readAnalogueInput] ↔ t % 10 = 5) ∧
    (tasksCalled inp s (t : Int) = [Task.display] ↔ t % 40 = 7) ∧
    (tasksCalled inp s (t : Int) = [Task.errorCodes] ↔ t % 10 = 9) ∧
    (tasksCalled inp s (t : Int) = [Task.log] ↔ t % 100 = 11) := by
  rw [tasksCalled_natCast, specTask_eq]
  simp only [List.cons.injEq, and_true]
  refine ⟨?_, ?_, ?_, ?_, ?_, ?_, ?_⟩ <;> split_ifs <;> simp <;> omega

/-- A predicate of period `P` holds equally often in every window of `P`
consecutive numbers. -/
theorem countP_window (p : Nat → Bool) (P : Nat) (hper : ∀ n, p (n + P) = p n) (t : Nat) :
    (List.range' t P).countP p = (List.range' 0 P).countP p := by
  induction t with
  | zero => rfl
  | succ t ih =>
    have h1 : (List.range' t (P + 1)).countP p
        = (if p t then 1 else 0) + (List.range' (t + 1) P).countP p := by
      rw [List.range'_succ, List.countP_cons]
      omega
    have h2 : (List.range' t (P + 1)).countP p
        = (List.range' t P).countP p + (if p (t + P) then 1 else 0) := by
      rw [List.range'_concat, List.countP_append]
      simp [List.countP_cons]
    rw [hper t] at h2
    omega

theorem firesExactlyAt_of (task : Task) (P R : Nat)
    (hiff : ∀ (inp : Inputs) (s : State) (t : Nat),
      tasksCalled inp s (t : Int) = [task] ↔ t % P = R)
    (hbase : (List.range' 0 P).countP (fun k => decide (k % P = R)) = 1) :
    firesExactlyAt task P R := by
  intro inp s t
  refine ⟨hiff inp s t, ?_⟩
  have hfun : (fun k : Nat => decide (tasksCalled inp s (k : Int) = [task]))
      = (fun k : Nat => decide (k % P = R)) := by
    funext k
    simp only [hiff inp s k]
  rw [hfun, countP_window _ P (fun n => by simp) t, hbase]

/-! ## The schedule (C1 - C4) -/

/-- C1. For every tick value `t ≥ 0`, one invocation of `CyclicExecutive` entered
with `ticks = t` enters exactly one task body (the call log grows by exactly one
entry), and that task is the one the rule list of section 4.2 of the
specification gives for `t` under first-match-wins with the shutdown check as
default. -/
theorem one_task_per_tick_as_specified (inp : Inputs) (s : State) (t : Nat) :
    (CyclicExecutive inp { s with ticks := (t : Int) }).state.calls = s.calls ++ [specTask t] :=
  CyclicExecutive_calls inp { s with ticks := (t : Int) } t rfl

/-- C2. For every tick `t ≥ 0` at most one of the seven conditions of the
`if / else if` chain holds. -/
theorem schedule_conditions_mutually_exclusive (t : Nat) :
    (scheduleConditions (t : Int)).count true ≤ 1 := by
  simp only [scheduleConditions, cMod_20, cMod_80, cMod_10, cMod_40, cMod_100]
  norm_cast
  simp only [List.count_cons, List.count_nil, beq_iff_eq, decide_eq_true_eq]
  split_ifs <;> omega

/-- C3. Each single-phase task is entered at tick `t ≥ 0` if and only if
`t mod P = R`, hence exactly once in every `P` consecutive ticks; with the 50 ms
tick the periods are 1.0 s, 4.0 s, 0.5 s, 2.0 s, 0.5 s and 5.0 s. -/
theorem single_phase_tasks_fire_once_per_period :
    firesExactlyAt Task.measureFrequency 20 1 ∧
    firesExactlyAt Task.outputWatchdog 80 3 ∧
    firesExactlyAt Task.readAnalogueInput 10 5 ∧
    firesExactlyAt Task.display 40 7 ∧
    firesExactlyAt Task.errorCodes 10 9 ∧
    firesExactlyAt Task.log 100 11 ∧
    [20 * tickMs, 80 * tickMs, 10 * tickMs, 40 * tickMs, 10 * tickMs, 100 * tickMs]
      = [1000, 4000, 500, 2000, 500, 5000] := by
  refine ⟨?_, ?_, ?_, ?_, ?_, ?_, by decide⟩
  · exact firesExactlyAt_of _ 20 1 (fun inp s t => (tasksCalled_iff inp s t).1) (by decide)
  · exact firesExactlyAt_of _ 80 3 (fun inp s t => (tasksCalled_iff inp s t).2.2.1) (by decide)
  · exact firesExactlyAt_of _ 10 5 (fun inp s t => (tasksCalled_iff inp s t).2.2.2.1)
      (by decide)
  · exact firesExactlyAt_of _ 40 7 (fun inp s t => (tasksCalled_iff inp s t).2.2.2.2.1)
      (by decide)
  · exact firesExactlyAt_of _ 10 9 (fun inp s t => (tasksCalled_iff inp s t).2.2.2.2.2.1)
      (by decide)
  · exact firesExactlyAt_of _ 100 11 (fun inp s t => (tasksCalled_iff inp s t).2.2.2.2.2.2)
      (by decide)

/-- C4. The digital switch is read three times per second: at a tick `t ≥ 0` the
task entered is `readDigitalInput` if and only if `t mod 20` is 2, 8 or 14, and
among the 20 consecutive ticks `t, ..., t+19` (one second at 50 ms per tick)
exactly 3 enter it. -/
theorem readDigitalInput_three_times_per_second (inp : Inputs) (s : State) (t : Nat) :
    (tasksCalled inp s (t : Int) = [Task.readDigitalInput] ↔
      (t % 20 = 2 ∨ t % 20 = 8 ∨ t % 20 = 14)) ∧
    (List.range' t 20).countP
      (fun (k : Nat) => decide (tasksCalled inp s (k : Int) = [Task.readDigitalInput])) = 3 ∧
    20 * tickMs = 1000 := by
  refine ⟨(tasksCalled_iff inp s t).2.1, ?_, by decide⟩
  have hfun : (fun k : Nat => decide (tasksCalled inp s (k : Int) = [Task.readDigitalInput]))
      = (fun k : Nat => decide (k % 20 = 2 ∨ k % 20 = 8 ∨ k % 20 = 14)) := by
    funext k
    simp only [(tasksCalled_iff inp s k).2.1]
  rw [hfun, countP_window _ 20 (fun n => by simp) t]
  decide

/-! ## Lemmas on the tick counter -/

theorem andThen_eq_returned (o : Outcome) (f : State → Outcome) (s' : State)
    (h : o.andThen f = Outcome.returned s') :
    ∃ s1, o = Outcome.returned s1 ∧ f s1 = Outcome.returned s' := by
  cases o with
  | returned s1 => exact ⟨s1, rfl, h⟩
  | exited s1 => exact absurd h (by simp [Outcome.andThen])
  | stalled s1 => exact absurd h (by simp [Outcome.andThen])
  | undefined s1 => exact absurd h (by simp [Outcome.andThen])

theorem andThen_state_ticks (o : Outcome) (f : State → Outcome)
    (hf : ∀ s, (f s).state.ticks = s.ticks) :
    (o.andThen f).state.ticks = o.state.ticks := by
  cases o
  · exact hf _
  all_goals rfl

theorem storeFrequency_ticks (inp : Inputs) (s : State) :
    (storeFrequency inp s).state.ticks = s.ticks := by
  unfold storeFrequency
  dsimp only
  split_ifs <;> rfl

theorem measureFrequency_ticks (inp : Inputs) (s : State) :
    (measureFrequency inp s).state.ticks = s.ticks := by
  unfold measureFrequency
  dsimp only
  split_ifs <;> (split <;> [rfl; (split <;> [rfl; exact storeFrequency_ticks _ _])])

theorem readAnalogueInput_ticks (inp : Inputs) (s : State) :
    (readAnalogueInput inp s).state.ticks = s.ticks := by
  unfold readAnalogueInput averageWindows
  dsimp only
  repeat' split
  all_goals rfl

theorem errorCodes_ticks (inp : Inputs) (s : State) :
    (errorCodes inp s).state.ticks = s.ticks := by
  unfold errorCodes
  dsimp only
  split_ifs <;> rfl

theorem checkShutdown_ticks (inp : Inputs) (s : State) :
    (checkShutdown inp s).state.ticks = s.ticks := by
  unfold checkShutdown
  dsimp only
  split_ifs <;> rfl

theorem wrapInt32_of_inRange (x : Int) (hlo : -2147483648 ≤ x) (hhi : x ≤ 2147483647) :
    wrapInt32 x = x := by
  unfold wrapInt32
  omega

/-- An invocation that returns has executed `ticks++` exactly once. -/
theorem CyclicExecutive_returned_ticks (inp : Inputs) (s s' : State)
    (h : CyclicExecutive inp s = Outcome.returned s') :
    s'.ticks = wrapInt32 (s.ticks + 1) := by
  unfold CyclicExecutive at h
  obtain ⟨s1, h1, h2⟩ := andThen_eq_returned _ _ _ h
  have hs' : s' = incrementTicks s1 := by
    injection h2 with h2
    exact h2.symm
  have hs1 : (Outcome.returned s1).state.ticks = s.ticks := by
    rw [← h1]
    split_ifs
    · exact measureFrequency_ticks inp s
    · rfl
    · rfl
    · exact readAnalogueInput_ticks inp s
    · rfl
    · rw [andThen_state_ticks _ (fun s1 => Outcome.returned (writeExecutionPulse 0 s1))
        (fun _ => rfl), errorCodes_ticks]
      rfl
    · rfl
    · exact checkShutdown_ticks inp s
  rw [hs', ← hs1]
  rfl

theorem runTicks_returned_ticks (inps : List Inputs) :
    ∀ (s s' : State), -2147483648 ≤ s.ticks → s.ticks + (inps.length : Int) ≤ 2147483647 →
      runTicks inps s = Outcome.returned s' → s'.ticks = s.ticks + (inps.length : Int) := by
  induction inps with
  | nil =>
    intro s s' _ _ h
    simp only [runTicks, Outcome.returned.injEq] at h
    simp [h]
  | cons inp rest ih =>
    intro s s' hlo hhi h
    simp only [List.length_cons, Nat.cast_add, Nat.cast_one] at hhi ⊢
    obtain ⟨s1, h1, h2⟩ := andThen_eq_returned _ _ _ h
    have ht := CyclicExecutive_returned_ticks inp s s1 h1
    rw [wrapInt32_of_inRange _ (by omega) (by omega)] at ht
    have := ih s1 s' (by omega) (by omega) h2
    omega

/-! ## Lemmas on the analogue window -/

/-- The past-the-end iterator is outside the domain of `erase`. -/
theorem vectorErase_end (v : List ℚ) : vectorErase v (vectorEnd v) = none := by
  simp [vectorErase, vectorEnd]

/-- Every invocation of `readAnalogueInput` stops at the first `erase`. -/
theorem readAnalogueInput_eq (inp : Inputs) (s : State) :
    readAnalogueInput inp s =
      Outcome.undefined
        { s.enter Task.readAnalogueInput with
          analogue_in_1 := inp.input1
          analogue_in_2 := inp.input2
          analog1 := vectorInsertBegin s.analog1 inp.input1 } := by
  unfold readAnalogueInput
  dsimp only
  rw [vectorErase_end]
  rfl

/-- A busy-wait loop ends as soon as a sample differs from the awaited level,
provided the poll budget reaches that sample. -/
theorem awaitChange_of_change (wave : Nat → Bool) (level : Bool) :
    ∀ (fuel i k : Nat), k < fuel → wave (i + k) ≠ level →
      ∃ m, awaitChange wave level fuel i = some m ∧ i < m ∧ m ≤ i + k + 1 := by
  intro fuel
  induction fuel with
  | zero => intro i k hk; omega
  | succ fuel ih =>
    intro i k hk hw
    unfold awaitChange
    by_cases hi : wave i = level
    · rw [if_pos hi]
      cases k with
      | zero => exact absurd hi hw
      | succ k =>
        have hw2 : wave (i + 1 + k) ≠ level := by
          have : i + 1 + k = i + (k + 1) := by omega
          rw [this]
          exact hw
        obtain ⟨m, hm, h1, h2⟩ := ih (i + 1) k (by omega) hw2
        exact ⟨m, hm, by omega, by omega⟩
    · rw [if_neg hi]
      exact ⟨i + 1, rfl, by omega, by omega⟩

/-- When the wave leaves its entry level at sample `i` and is back at it at a
later sample `j` within the poll budget, both busy-wait loops end and the task
reaches the computation of lines 121-131, whatever the entry level. -/
theorem measureFrequency_after_two_edges (inp : Inputs) (s : State) (i j : Nat)
    (hi : 1 ≤ i) (hij : i < j) (hj : j ≤ inp.pollFuel)
    (hwi : inp.wave i ≠ inp.wave 0) (hwj : inp.wave j = inp.wave 0) :
    measureFrequency inp s = storeFrequency inp (s.enter Task.measureFrequency) := by
  unfold measureFrequency
  dsimp only
  by_cases h0 : inp.wave 0 = false
  · rw [if_pos h0]
    have hw1 : inp.wave (1 + (i - 1)) ≠ false := by
      have : 1 + (i - 1) = i := by omega
      rw [this, ← h0]
      exact hwi
    obtain ⟨m1, hm1, h1a, h1b⟩ := awaitChange_of_change inp.wave false inp.pollFuel 1 (i - 1)
      (by omega) hw1
    have hw2 : inp.wave (m1 + (j - m1)) ≠ true := by
      have : m1 + (j - m1) = j := by omega
      rw [this, hwj, h0]
      simp
    obtain ⟨m2, hm2, _, _⟩ := awaitChange_of_change inp.wave true inp.pollFuel m1 (j - m1)
      (by omega) hw2
    simp only [hm1, hm2]
  · rw [if_neg h0]
    have h0t : inp.wave 0 = true := by simpa using h0
    have hw1 : inp.wave (1 + (i - 1)) ≠ true := by
      have : 1 + (i - 1) = i := by omega
      rw [this, ← h0t]
      exact hwi
    obtain ⟨m1, hm1, h1a, h1b⟩ := awaitChange_of_change inp.wave true inp.pollFuel 1 (i - 1)
      (by omega) hw1
    have hw2 : inp.wave (m1 + (j - m1)) ≠ false := by
      have : m1 + (j - m1) = j := by omega
      rw [this, hwj, h0t]
      simp
    obtain ⟨m2, hm2, _, _⟩ := awaitChange_of_change inp.wave false inp.pollFuel m1 (j - m1)
      (by omega) hw2
    simp only [hm1, hm2]

theorem floatToInt_div (n : Nat) (d : Nat) :
    floatToInt ((n : ℚ) / (d : ℚ)) = (n : Int) / (d : Int) := by
  unfold floatToInt
  have hnn : (0 : ℚ) ≤ (n : ℚ) / (d : ℚ) := by positivity
  rw [if_pos hnn]
  have h := Rat.floor_intCast_div_natCast (n : Int) d
  rw [Int.cast_natCast] at h
  exact h

/-! ## The tick counter (C5) -/

/-- C5. Below the overflow bound of the 32-bit counter, an invocation of
`CyclicExecutive` that returns leaves `ticks` equal to its entry value plus 1
(so the counter strictly increases); none of the eight task bodies writes
`ticks`; and, starting from the start-up state with `ticks = 0`, after `n`
completed invocations `ticks = n`. -/
theorem tick_counter_incremented_once_per_invocation
    (inp : Inputs) (s s1 : State) (inps : List Inputs) (sn : State)
    (hlo : -2147483648 ≤ s.ticks) (hhi : s.ticks < 2147483647)
    (hret : CyclicExecutive inp s = Outcome.returned s1)
    (hlen : inps.length ≤ 2147483647)
    (hrun : runTicks inps initState = Outcome.returned sn) :
    (s1.ticks = s.ticks + 1 ∧ s.ticks < s1.ticks) ∧
    ((measureFrequency inp s).state.ticks = s.ticks ∧
      (readDigitalInput inp s).state.ticks = s.ticks ∧
      (outputWatchdog inp s).state.ticks = s.ticks ∧
      (readAnalogueInput inp s).state.ticks = s.ticks ∧
      (display inp s).state.ticks = s.ticks ∧
      (errorCodes inp s).state.ticks = s.ticks ∧
      (log inp s).state.ticks = s.ticks ∧
      (checkShutdown inp s).state.ticks = s.ticks) ∧
    sn.ticks = (inps.length : Int) := by
  have h1 : s1.ticks = s.ticks + 1 := by
    rw [CyclicExecutive_returned_ticks inp s s1 hret,
      wrapInt32_of_inRange _ (by omega) (by omega)]
  refine ⟨⟨h1, by omega⟩, ⟨measureFrequency_ticks inp s, rfl, rfl,
    readAnalogueInput_ticks inp s, rfl, errorCodes_ticks inp s, rfl,
    checkShutdown_ticks inp s⟩, ?_⟩
  have := runTicks_returned_ticks inps initState sn (by decide)
    (by simp only [initState]; omega) hrun
  simpa [initState] using this

/-- Witness for C5: the first three invocations after start-up (shutdown check,
frequency measurement on a toggling wave, switch read) return and leave
`ticks = 3`. -/
theorem tick_counter_incremented_once_per_invocation_witness :
    (-2147483648 ≤ initState.ticks ∧ initState.ticks < 2147483647) ∧
    (CyclicExecutive inpToggle initState).state.ticks = initState.ticks + 1 ∧
    (runTicks [inpToggle, inpToggle, inpToggle] initState).state.ticks = 3 :=
  have h := tick_counter_incremented_once_per_invocation inpToggle initState
    (CyclicExecutive inpToggle initState).state [inpToggle, inpToggle, inpToggle]
    (runTicks [inpToggle, inpToggle, inpToggle] initState).state
    (by decide) (by decide) rfl (by decide) rfl
  ⟨⟨by decide, by decide⟩, h.1.1, h.2.2⟩

/-! ## Error evaluation (C6) -/

/-- C6. For every state, `errorCodes` returns with `errorCode = 3`
(OVER_THRESHOLD) if and only if `switch_1 == 1` and `average_analogue_in_1 >
average_analogue_in_2` held on entry, and with `errorCode = 0` (NONE) otherwise;
the text printed at (0, 13) is "E:3" exactly when the code is 3 and "E:0"
otherwise. The three scenarios of the specification are the last three
conjuncts. -/
theorem errorCodes_over_threshold (inp : Inputs) (s : State) :
    (∃ s', errorCodes inp s = Outcome.returned s' ∧
      (s'.errorCode = 3 ↔
        (s.switch_1 = 1 ∧ s.average_analogue_in_1 > s.average_analogue_in_2)) ∧
      (s'.errorCode = 3 ∨ s'.errorCode = 0) ∧
      s'.lcd = s.lcd ++
        [LcdOp.locate 0 13, LcdOp.print (if s'.errorCode = 3 then "E:3" else "E:0")]) ∧
    (errorCodes inp
      { s with switch_1 := 1, average_analogue_in_1 := 2, average_analogue_in_2 := 1 }
      ).state.errorCode = 3 ∧
    (errorCodes inp
      { s with switch_1 := 0, average_analogue_in_1 := 2, average_analogue_in_2 := 1 }
      ).state.errorCode = 0 ∧
    (errorCodes inp
      { s with switch_1 := 1, average_analogue_in_1 := 1, average_analogue_in_2 := 2 }
      ).state.errorCode = 0 := by
  refine ⟨?_, ?_, ?_, ?_⟩
  · unfold errorCodes
    by_cases hc : s.switch_1 = 1 ∧ s.average_analogue_in_1 > s.average_analogue_in_2
    · refine ⟨_, rfl, ?_⟩
      simp [State.enter, State.lcdWrite, State.leave, hc]
    · refine ⟨_, rfl, ?_⟩
      simp [State.enter, State.lcdWrite, State.leave, hc]
  · simp [errorCodes, State.enter, State.lcdWrite, State.leave, Outcome.state]
  · simp [errorCodes, State.enter, State.lcdWrite, State.leave, Outcome.state]
  · simp [errorCodes, State.enter, State.lcdWrite, State.leave, Outcome.state]

/-! ## The analogue window and the moving average (C7, C8) -/

/-- C7 (what the code does). In every state and for every sample, the call
`analog1.erase(analog1.end())` of line 179 is made on the vector that the
insertion has just grown by one element, with the past-the-end iterator, which
is outside the domain of `erase`: the invocation of `readAnalogueInput` ends
there with no defined behaviour and the oldest sample still in the vector. On
the first invocation after start-up with sample 1/2 the vector then holds the
five entries 1/2, 0, 0, 0, 0. -/
theorem readAnalogueInput_erases_past_the_end (inp : Inputs) (s : State) :
    vectorErase (vectorInsertBegin s.analog1 inp.input1)
      (vectorEnd (vectorInsertBegin s.analog1 inp.input1)) = none ∧
    (∃ s', readAnalogueInput inp s = Outcome.undefined s' ∧
      s'.analog1 = inp.input1 :: s.analog1 ∧ s'.analog2 = s.analog2) ∧
    (readAnalogueInput inpToggle initState).state.analog1 = [1 / 2, 0, 0, 0, 0] := by
  refine ⟨vectorErase_end _, ⟨_, readAnalogueInput_eq inp s, rfl, rfl⟩, ?_⟩
  rw [readAnalogueInput_eq]
  rfl

/-- C8 (what the code does). No invocation of `readAnalogueInput` reaches the
assignments of lines 193-194: it ends at the `erase` of line 179 with both
filtered values as they were on entry. On the first invocation after start-up
with sample 1/2 the filtered value of channel 1 is still 0, whereas the mean of
the window 1/2, 0, 0, 0 times 3.3 is 33/80. -/
theorem readAnalogueInput_stores_no_average (inp : Inputs) (s : State) :
    (∃ s', readAnalogueInput inp s = Outcome.undefined s' ∧
      s'.average_analogue_in_1 = s.average_analogue_in_1 ∧
      s'.average_analogue_in_2 = s.average_analogue_in_2) ∧
    (readAnalogueInput inpToggle initState).state.average_analogue_in_1 = 0 ∧
    ([inpToggle.input1, 0, 0, 0].sum / 4 * (33 / 10) : ℚ) = 33 / 80 := by
  refine ⟨⟨_, readAnalogueInput_eq inp s, rfl, rfl⟩, ?_, ?_⟩
  · rw [readAnalogueInput_eq]
    rfl
  · simp only [inpToggle]
    norm_num

/-! ## Lemmas on the dispatch at non-negative ticks -/

/-- At a non-negative tick the conditions of the chain are conditions on natural
numbers. -/
theorem CyclicExecutive_natCast (inp : Inputs) (s : State) (t : Nat) (h : s.ticks = (t : Int)) :
    CyclicExecutive inp s =
      (if t % 20 = 1 then measureFrequency inp s
      else if t % 20 = 2 ∨ t % 20 = 8 ∨ t % 20 = 14 then readDigitalInput inp s
      else if t % 80 = 3 then outputWatchdog inp s
      else if t % 10 = 5 then readAnalogueInput inp s
      else if t % 40 = 7 then display inp s
      else if t % 10 = 9 then
        (errorCodes inp (writeExecutionPulse 1 s)).andThen
          (fun s1 => Outcome.returned (writeExecutionPulse 0 s1))
      else if t % 100 = 11 then log inp s
      else checkShutdown inp s).andThen
      (fun s1 => Outcome.returned (incrementTicks s1)) := by
  unfold CyclicExecutive
  rw [h]
  simp only [cMod_20, cMod_80, cMod_10, cMod_40, cMod_100]
  norm_cast

theorem specTask_default_iff (t : Nat) :
    specTask t = Task.checkShutdown ↔
      (t % 20 ≠ 1 ∧ t % 20 ≠ 2 ∧ t % 20 ≠ 8 ∧ t % 20 ≠ 14 ∧ t % 80 ≠ 3 ∧ t % 10 ≠ 5 ∧
        t % 40 ≠ 7 ∧ t % 10 ≠ 9 ∧ t % 100 ≠ 11) := by
  rw [specTask_eq]
  split_ifs <;> simp <;> omega

/-! ## Lemmas on the output lines -/

theorem storeFrequency_outputs (inp : Inputs) (s : State) :
    (storeFrequency inp s).state.pins = s.pins ∧
    (storeFrequency inp s).state.watchdog = s.watchdog ∧
    (storeFrequency inp s).state.executionPulse = s.executionPulse := by
  unfold storeFrequency
  dsimp only
  split_ifs <;> exact ⟨rfl, rfl, rfl⟩

theorem measureFrequency_outputs (inp : Inputs) (s : State) :
    (measureFrequency inp s).state.pins = s.pins ∧
    (measureFrequency inp s).state.watchdog = s.watchdog ∧
    (measureFrequency inp s).state.executionPulse = s.executionPulse := by
  unfold measureFrequency
  dsimp only
  split_ifs <;>
    (split <;> [exact ⟨rfl, rfl, rfl⟩;
      (split <;> [exact ⟨rfl, rfl, rfl⟩; exact storeFrequency_outputs _ _])])

theorem readAnalogueInput_outputs (inp : Inputs) (s : State) :
    (readAnalogueInput inp s).state.pins = s.pins ∧
    (readAnalogueInput inp s).state.watchdog = s.watchdog ∧
    (readAnalogueInput inp s).state.executionPulse = s.executionPulse := by
  rw [readAnalogueInput_eq]
  exact ⟨rfl, rfl, rfl⟩

/-- The error evaluation always returns and leaves the output side alone. -/
theorem errorCodes_returns (inp : Inputs) (s : State) :
    ∃ s', errorCodes inp s = Outcome.returned s' ∧ s'.pins = s.pins ∧
      s'.watchdog = s.watchdog ∧ s'.executionPulse = s.executionPulse ∧ s'.ticks = s.ticks := by
  unfold errorCodes
  dsimp only
  split_ifs <;> exact ⟨_, rfl, rfl, rfl, rfl, rfl⟩

theorem checkShutdown_outputs (inp : Inputs) (s : State) :
    (checkShutdown inp s).state.pins = s.pins ∧
    (checkShutdown inp s).state.watchdog = s.watchdog ∧
    (checkShutdown inp s).state.executionPulse = s.executionPulse := by
  unfold checkShutdown
  dsimp only
  split_ifs <;> exact ⟨rfl, rfl, rfl⟩

/-- Pin events appended by one invocation, for every way the invocation can
end. -/
theorem CyclicExecutive_outputs (inp : Inputs) (s : State) (t : Nat) (h : s.ticks = (t : Int)) :
    (CyclicExecutive inp s).state.pins =
      s.pins ++
        (if t % 20 = 1 then []
        else if t % 20 = 2 ∨ t % 20 = 8 ∨ t % 20 = 14 then []
        else if t % 80 = 3 then
          [PinEvent.watchdog 1, PinEvent.waitMs 7, PinEvent.watchdog 0]
        else if t % 10 = 5 then []
        else if t % 40 = 7 then []
        else if t % 10 = 9 then [PinEvent.executionPulse 1, PinEvent.executionPulse 0]
        else []) := by
  rw [CyclicExecutive_natCast inp s t h]
  have hincr : ∀ o : Outcome,
      (o.andThen (fun s1 => Outcome.returned (incrementTicks s1))).state.pins = o.state.pins := by
    intro o
    cases o <;> rfl
  rw [hincr]
  split_ifs
  · simpa using (measureFrequency_outputs inp s).1
  · simp [readDigitalInput, Outcome.state, State.enter, State.leave]
  · simp [outputWatchdog, Outcome.state, State.enter, State.leave, State.pinWrite]
  · simpa using (readAnalogueInput_outputs inp s).1
  · simp [display, Outcome.state, State.enter, State.leave, State.lcdWrite]
  · obtain ⟨s', hs', hp, _⟩ := errorCodes_returns inp (writeExecutionPulse 1 s)
    rw [hs']
    simp [Outcome.andThen, Outcome.state, writeExecutionPulse, State.pinWrite, hp]
  · simp [log, Outcome.state, State.enter, State.leave, State.serialWrite]
  · simpa using (checkShutdown_outputs inp s).1

/-- Levels of the two output lines at the end of one invocation entered with both
lines low, for every way the invocation can end. -/
theorem CyclicExecutive_levels (inp : Inputs) (s : State) (t : Nat) (h : s.ticks = (t : Int))
    (hw : s.watchdog = 0) (hp : s.executionPulse = 0) :
    (CyclicExecutive inp s).state.watchdog = 0 ∧
    (CyclicExecutive inp s).state.executionPulse = 0 := by
  rw [CyclicExecutive_natCast inp s t h]
  have hincr : ∀ o : Outcome,
      (o.andThen (fun s1 => Outcome.returned (incrementTicks s1))).state.watchdog
        = o.state.watchdog ∧
      (o.andThen (fun s1 => Outcome.returned (incrementTicks s1))).state.executionPulse
        = o.state.executionPulse := by
    intro o
    cases o <;> exact ⟨rfl, rfl⟩
  rw [(hincr _).1, (hincr _).2]
  split_ifs
  · rw [(measureFrequency_outputs inp s).2.1, (measureFrequency_outputs inp s).2.2]
    exact ⟨hw, hp⟩
  · exact ⟨hw, hp⟩
  · exact ⟨rfl, hp⟩
  · rw [(readAnalogueInput_outputs inp s).2.1, (readAnalogueInput_outputs inp s).2.2]
    exact ⟨hw, hp⟩
  · exact ⟨hw, hp⟩
  · obtain ⟨s', hs', _, hw', _⟩ := errorCodes_returns inp (writeExecutionPulse 1 s)
    rw [hs']
    exact ⟨hw'.trans hw, rfl⟩
  · exact ⟨hw, hp⟩
  · rw [(checkShutdown_outputs inp s).2.1, (checkShutdown_outputs inp s).2.2]
    exact ⟨hw, hp⟩

/-! ## Lemmas on the text conversions -/

theorem roundHalfEven_intCast (n : Int) : roundHalfEven (n : ℚ) = n := by
  simp [roundHalfEven]

theorem fmtFixed2_165 : fmtFixed2 (33 / 20) = "1.65" := by
  have h : (|(33 / 20 : ℚ)| * 100) = ((165 : Int) : ℚ) := by
    rw [abs_of_nonneg (by norm_num)]
    norm_num
  unfold fmtFixed2
  rw [h, roundHalfEven_intCast]
  rw [if_neg (by norm_num)]
  decide

theorem fmtFixed2_zero : fmtFixed2 0 = "0.00" := by
  have h : (|(0 : ℚ)| * 100) = ((0 : Int) : ℚ) := by norm_num
  unfold fmtFixed2
  rw [h, roundHalfEven_intCast]
  rw [if_neg (by norm_num)]
  decide

/-- The serial output of `log` on the readings of the log scenario. -/
theorem log_stateReadings (inp : Inputs) :
    (log inp stateReadings).state.pc = ["50, 1, 1.65, 0.00 \r\n"] := by
  show [fmtInt 50 ++ ", " ++ fmtInt 1 ++ ", " ++ fmtFixed2 (33 / 20) ++ ", " ++
    fmtFixed2 0 ++ " \r\n"] = _
  rw [fmtFixed2_165, fmtFixed2_zero]
  decide

/-! ## Shutdown (C11) -/

/-- C11 (amended). With the shutdown input asserted at tick `t ≥ 0`: if
`checkShutdown` is the task selected at `t`, the invocation clears the display,
prints "Shutdown" at (0,0) and exits before `ticks++`, and the run stops there
whatever inputs `rest` follow (no task is entered afterwards); at every other
tick the invocation is the same for every value `b` of the shutdown input, that
is, the input is not read. -/
theorem shutdown_terminates_run (inp : Inputs) (rest : List Inputs) (s : State) (t : Nat)
    (b : Bool) (hsd : inp.shutdown = true) :
    if tasksCalled inp s (t : Int) = [Task.checkShutdown] then
      runTicks (inp :: rest) { s with ticks := (t : Int) } =
        Outcome.exited
          { s with
            ticks := (t : Int)
            calls := s.calls ++ [Task.checkShutdown]
            lcd := s.lcd ++ [LcdOp.cls, LcdOp.locate 0 0, LcdOp.print "Shutdown"]
            trace := s.trace ++
              [Event.enter Task.checkShutdown, Event.lcd LcdOp.cls,
               Event.lcd (LcdOp.locate 0 0), Event.lcd (LcdOp.print "Shutdown")] }
    else
      CyclicExecutive { inp with shutdown := b } { s with ticks := (t : Int) } =
        CyclicExecutive inp { s with ticks := (t : Int) } := by
  by_cases hsel : tasksCalled inp s (t : Int) = [Task.checkShutdown]
  · rw [if_pos hsel]
    rw [tasksCalled_natCast] at hsel
    have hd : specTask t = Task.checkShutdown := by simpa using hsel
    rw [specTask_default_iff] at hd
    obtain ⟨h1, h2, h3, h4, h5, h6, h7, h8, h9⟩ := hd
    unfold runTicks
    rw [CyclicExecutive_natCast inp _ t rfl]
    rw [if_neg h1, if_neg (by omega), if_neg h5, if_neg h6, if_neg h7, if_neg h8, if_neg h9]
    simp [checkShutdown, pinValue, hsd, Outcome.andThen, State.enter, State.lcdWrite]
  · rw [if_neg hsel]
    rw [tasksCalled_natCast] at hsel
    have hd : ¬ specTask t = Task.checkShutdown := by simpa using hsel
    rw [specTask_default_iff] at hd
    rw [CyclicExecutive_natCast inp _ t rfl, CyclicExecutive_natCast { inp with shutdown := b } _ t rfl]
    split_ifs
    · rfl
    · rfl
    · rfl
    · rfl
    · rfl
    · rfl
    · rfl
    · exact absurd ⟨by omega, by omega, by omega, by omega, by omega, by omega, by omega,
        by omega, by omega⟩ hd

/-- Witness for C11: shutdown asserted at tick 0, a default slot. -/
theorem shutdown_terminates_run_witness :
    inpShutdown.shutdown = true ∧
    tasksCalled inpShutdown initState ((0 : Nat) : Int) = [Task.checkShutdown] ∧
    runTicks [inpShutdown, inpToggle, inpToggle] { initState with ticks := ((0 : Nat) : Int) } =
      Outcome.exited
        { initState with
          ticks := ((0 : Nat) : Int)
          calls := initState.calls ++ [Task.checkShutdown]
          lcd := initState.lcd ++ [LcdOp.cls, LcdOp.locate 0 0, LcdOp.print "Shutdown"]
          trace := initState.trace ++
            [Event.enter Task.checkShutdown, Event.lcd LcdOp.cls,
             Event.lcd (LcdOp.locate 0 0), Event.lcd (LcdOp.print "Shutdown")] } := by
  have h := shutdown_terminates_run inpShutdown [inpToggle, inpToggle] initState 0 false rfl
  have hsel : tasksCalled inpShutdown initState ((0 : Nat) : Int) = [Task.checkShutdown] := rfl
  rw [if_pos hsel] at h
  exact ⟨rfl, hsel, h⟩

/-- Counterexample to C11 as stated: at tick 2 the task is `readDigitalInput`; with
the shutdown input asserted the invocation returns, the display is untouched
and the tick counter goes on to 3. -/
theorem shutdown_not_read_at_switch_tick :
    inpShutdown.shutdown = true ∧
    ∃ s', CyclicExecutive inpShutdown { initState with ticks := 2 } = Outcome.returned s' ∧
      s'.lcd = [] ∧ s'.ticks = 3 ∧ s'.calls = [Task.readDigitalInput] :=
  ⟨rfl, _, rfl, rfl, rfl, rfl⟩

/-! ## Log line (C12) -/

/-- C12 (amended). For every state the log task returns after appending exactly
one string to the serial output: frequency and switch as decimal integers and
the two filtered analogue values with two decimals, in that order, separated by
", ", then one space, then CR LF. For frequency 50, switch 1, analogue values
1.65 and 0.00 the output is `50, 1, 1.65, 0.00 ` followed by CR LF. -/
theorem log_line_format (inp : Inputs) (s : State) :
    (∃ s', log inp s = Outcome.returned s' ∧
      s'.pc = s.pc ++
        [fmtInt s.frequency ++ ", " ++ fmtInt s.switch_1 ++ ", " ++
          fmtFixed2 s.average_analogue_in_1 ++ ", " ++
          fmtFixed2 s.average_analogue_in_2 ++ " " ++ "\r\n"]) ∧
    (log inp stateReadings).state.pc = ["50, 1, 1.65, 0.00" ++ " " ++ "\r\n"] := by
  refine ⟨⟨_, rfl, ?_⟩, ?_⟩
  · simp [State.enter, State.leave, State.serialWrite, String.append_assoc]
  · rw [log_stateReadings]
    decide

/-- Counterexample to C12 as stated: for frequency 50, switch 1, analogue values
1.65 and 0.00 the text before CR LF is `50, 1, 1.65, 0.00 `, with a trailing
space, not `50, 1, 1.65, 0.00`. -/
theorem log_line_has_trailing_space :
    (log inpToggle stateReadings).state.pc = ["50, 1, 1.65, 0.00 \r\n"] ∧
    "50, 1, 1.65, 0.00 \r\n" ≠ "50, 1, 1.65, 0.00\r\n" :=
  ⟨log_stateReadings inpToggle, by decide⟩

/-! ## Display and log as pure outputs (C14) -/

/-- C14. For every state, `display` and `log` return; each leaves `period`,
`frequency`, `switch_1`, both windows, both filtered values, `errorCode` and
`ticks` unchanged, as well as the raw samples, the output pins and the other
sink; besides its sink each writes only its own execution time (`exec5`,
`exec7`); and the texts printed are built from the current `frequency`,
`switch_1` and filtered values. -/
theorem display_and_log_write_only_their_sink (inp : Inputs) (s : State) :
    (∃ s', display inp s = Outcome.returned s' ∧
      (s'.period = s.period ∧ s'.frequency = s.frequency ∧ s'.switch_1 = s.switch_1 ∧
        s'.analog1 = s.analog1 ∧ s'.analog2 = s.analog2 ∧
        s'.average_analogue_in_1 = s.average_analogue_in_1 ∧
        s'.average_analogue_in_2 = s.average_analogue_in_2 ∧
        s'.errorCode = s.errorCode ∧ s'.ticks = s.ticks) ∧
      (s'.analogue_in_1 = s.analogue_in_1 ∧ s'.analogue_in_2 = s.analogue_in_2 ∧
        s'.watchdog = s.watchdog ∧ s'.executionPulse = s.executionPulse ∧
        s'.pins = s.pins ∧ s'.pc = s.pc) ∧
      (s'.exec1 = s.exec1 ∧ s'.exec2 = s.exec2 ∧ s'.exec3 = s.exec3 ∧ s'.exec4 = s.exec4 ∧
        s'.exec6 = s.exec6 ∧ s'.exec7 = s.exec7 ∧ s'.exec5 = (inp.execUs : ℚ)) ∧
      s'.lcd = s.lcd ++
        [LcdOp.locate 0 0,
         LcdOp.print ("F:" ++ fmtInt s.frequency ++ "  SW:" ++ fmtInt s.switch_1),
         LcdOp.locate 1 0,
         LcdOp.print (fmtFixed2 s.average_analogue_in_1 ++ "  " ++
           fmtFixed2 s.average_analogue_in_2)]) ∧
    (∃ s', log inp s = Outcome.returned s' ∧
      (s'.period = s.period ∧ s'.frequency = s.frequency ∧ s'.switch_1 = s.switch_1 ∧
        s'.analog1 = s.analog1 ∧ s'.analog2 = s.analog2 ∧
        s'.average_analogue_in_1 = s.average_analogue_in_1 ∧
        s'.average_analogue_in_2 = s.average_analogue_in_2 ∧
        s'.errorCode = s.errorCode ∧ s'.ticks = s.ticks) ∧
      (s'.analogue_in_1 = s.analogue_in_1 ∧ s'.analogue_in_2 = s.analogue_in_2 ∧
        s'.watchdog = s.watchdog ∧ s'.executionPulse = s.executionPulse ∧
        s'.pins = s.pins ∧ s'.lcd = s.lcd) ∧
      (s'.exec1 = s.exec1 ∧ s'.exec2 = s.exec2 ∧ s'.exec3 = s.exec3 ∧ s'.exec4 = s.exec4 ∧
        s'.exec5 = s.exec5 ∧ s'.exec6 = s.exec6 ∧ s'.exec7 = (inp.execUs : ℚ)) ∧
      s'.pc = s.pc ++
        [fmtInt s.frequency ++ ", " ++ fmtInt s.switch_1 ++ ", " ++
          fmtFixed2 s.average_analogue_in_1 ++ ", " ++
          fmtFixed2 s.average_analogue_in_2 ++ " \r\n"]) := by
  refine ⟨⟨_, rfl, ?_⟩, ⟨_, rfl, ?_⟩⟩
  · exact ⟨⟨rfl, rfl, rfl, rfl, rfl, rfl, rfl, rfl, rfl⟩, ⟨rfl, rfl, rfl, rfl, rfl, rfl⟩,
      ⟨rfl, rfl, rfl, rfl, rfl, rfl, rfl⟩, rfl⟩
  · exact ⟨⟨rfl, rfl, rfl, rfl, rfl, rfl, rfl, rfl, rfl⟩, ⟨rfl, rfl, rfl, rfl, rfl, rfl⟩,
      ⟨rfl, rfl, rfl, rfl, rfl, rfl, rfl⟩, rfl⟩

/-! ## Lemmas on the busy-wait loops -/

/-- A loop that ends has seen a sample different from the awaited level, namely
the last one it read. -/
theorem awaitChange_some_spec (wave : Nat → Bool) (level : Bool) :
    ∀ (fuel i m : Nat), awaitChange wave level fuel i = some m →
      i < m ∧ wave (m - 1) ≠ level := by
  intro fuel
  induction fuel with
  | zero => intro i m h; simp [awaitChange] at h
  | succ fuel ih =>
    intro i m h
    unfold awaitChange at h
    by_cases hi : wave i = level
    · rw [if_pos hi] at h
      obtain ⟨h1, h2⟩ := ih (i + 1) m h
      exact ⟨by omega, h2⟩
    · rw [if_neg hi] at h
      have hm : m = i + 1 := by
        injection h with h
        exact h.symm
      subst hm
      exact ⟨by omega, by simpa using hi⟩

/-- On a line that stays at the awaited level no poll budget ends the loop. -/
theorem awaitChange_stuck (wave : Nat → Bool) (level : Bool) (hst : ∀ n, wave n = level) :
    ∀ (fuel i : Nat), awaitChange wave level fuel i = none := by
  intro fuel
  induction fuel with
  | zero => intro i; rfl
  | succ fuel ih =>
    intro i
    unfold awaitChange
    rw [if_pos (hst i)]
    exact ih (i + 1)

/-- The task either is still polling when the budget is used up, or has reached
the computation of lines 121-131. -/
theorem measureFrequency_cases (inp : Inputs) (s : State) :
    measureFrequency inp s = Outcome.stalled (s.enter Task.measureFrequency) ∨
    measureFrequency inp s = storeFrequency inp (s.enter Task.measureFrequency) := by
  unfold measureFrequency
  dsimp only
  split_ifs <;>
    (split <;> [exact Or.inl rfl; (split <;> [exact Or.inl rfl; exact Or.inr rfl])])

theorem measureFrequency_not_stalled_twoEdges (inp : Inputs) (s : State)
    (h : (measureFrequency inp s).isStalled = false) : twoEdges inp.wave := by
  unfold measureFrequency at h
  dsimp only at h
  by_cases h0 : inp.wave 0 = false
  · rw [if_pos h0] at h
    cases h1 : awaitChange inp.wave false inp.pollFuel 1 with
    | none => rw [h1] at h; exact absurd h (by simp [Outcome.isStalled])
    | some m1 =>
      rw [h1] at h
      dsimp only at h
      cases h2 : awaitChange inp.wave true inp.pollFuel m1 with
      | none => rw [h2] at h; exact absurd h (by simp [Outcome.isStalled])
      | some m2 =>
        obtain ⟨a1, a2⟩ := awaitChange_some_spec _ _ _ _ _ h1
        obtain ⟨b1, b2⟩ := awaitChange_some_spec _ _ _ _ _ h2
        refine ⟨m1 - 1, m2 - 1, by omega, by omega, ?_, ?_⟩
        · rw [h0]; exact a2
        · rw [h0]; simpa using b2
  · rw [if_neg h0] at h
    have h0t : inp.wave 0 = true := by simpa using h0
    cases h1 : awaitChange inp.wave true inp.pollFuel 1 with
    | none => rw [h1] at h; exact absurd h (by simp [Outcome.isStalled])
    | some m1 =>
      rw [h1] at h
      dsimp only at h
      cases h2 : awaitChange inp.wave false inp.pollFuel m1 with
      | none => rw [h2] at h; exact absurd h (by simp [Outcome.isStalled])
      | some m2 =>
        obtain ⟨a1, a2⟩ := awaitChange_some_spec _ _ _ _ _ h1
        obtain ⟨b1, b2⟩ := awaitChange_some_spec _ _ _ _ _ h2
        refine ⟨m1 - 1, m2 - 1, by omega, by omega, ?_, ?_⟩
        · rw [h0t]; exact a2
        · rw [h0t]; simpa using b2

theorem measureFrequency_stuck (inp : Inputs) (s : State) (b : Bool) (fuel : Nat) :
    measureFrequency { inp with wave := fun _ => b, pollFuel := fuel } s
      = Outcome.stalled (s.enter Task.measureFrequency) := by
  unfold measureFrequency
  dsimp only
  cases b with
  | false =>
    rw [if_pos rfl, awaitChange_stuck (fun _ => false) false (fun _ => rfl)]
  | true =>
    rw [if_neg (by simp), awaitChange_stuck (fun _ => true) true (fun _ => rfl)]

/-! ## Lemmas on the period of the schedule -/

theorem specTask_mod_400 (t : Nat) : specTask t = specTask (t % 400) := by
  rw [specTask_eq, specTask_eq]
  have h20 : t % 400 % 20 = t % 20 := Nat.mod_mod_of_dvd t (by decide)
  have h80 : t % 400 % 80 = t % 80 := Nat.mod_mod_of_dvd t (by decide)
  have h10 : t % 400 % 10 = t % 10 := Nat.mod_mod_of_dvd t (by decide)
  have h40 : t % 400 % 40 = t % 40 := Nat.mod_mod_of_dvd t (by decide)
  have h100 : t % 400 % 100 = t % 100 := Nat.mod_mod_of_dvd t (by decide)
  rw [h20, h80, h10, h40, h100]

set_option maxRecDepth 200000 in
/-- Within one hyperperiod, every tick is at most three ticks before a tick of the
shutdown check. -/
theorem default_within_four : ∀ r, r < 400 →
    ∃ k, k < 4 ∧ specTask ((r + k) % 400) = Task.checkShutdown := by
  decide

theorem cMod_negSucc (n m : Nat) :
    cMod (Int.negSucc n) (m : Int) = -(((n + 1) % m : Nat) : Int) := rfl

/-- On windows of four samples in [0, 1] the assignment of lines 193-194 yields a
value in [0, 3.3]. -/
theorem average_of_four_in_range (a b c d : ℚ)
    (ha : 0 ≤ a ∧ a ≤ 1) (hb : 0 ≤ b ∧ b ≤ 1) (hc : 0 ≤ c ∧ c ≤ 1) (hd : 0 ≤ d ∧ d ≤ 1) :
    0 ≤ [a, b, c, d].sum / 4 * (33 / 10) ∧ [a, b, c, d].sum / 4 * (33 / 10) ≤ 33 / 10 := by
  simp only [List.sum_cons, List.sum_nil, add_zero]
  constructor
  · linarith [ha.1, hb.1, hc.1, hd.1]
  · linarith [ha.2, hb.2, hc.2, hd.2]

/-! ## Shape of the schedule (C16 - C18) -/

/-- C16. The task entered is periodic in the tick with period 400 (20 s), and no
`p` with `0 < p < 400` is a period: some tick `u` and `u + p` enter different
tasks. Tick 3 enters the watchdog task while tick 203 enters the shutdown
check. -/
theorem schedule_hyperperiod_400 (inp : Inputs) (s : State) (t : Nat) (p : Fin 399) :
    tasksCalled inp s ((t + 400 : Nat) : Int) = tasksCalled inp s (t : Int) ∧
    (∃ u : Nat,
      tasksCalled inp s ((u + (p.val + 1) : Nat) : Int) ≠ tasksCalled inp s (u : Int)) ∧
    tasksCalled inp s ((3 : Nat) : Int) = [Task.outputWatchdog] ∧
    tasksCalled inp s ((203 : Nat) : Int) = [Task.checkShutdown] := by
  refine ⟨?_, ?_, ?_, ?_⟩
  · rw [tasksCalled_natCast, tasksCalled_natCast, specTask_mod_400 (t + 400),
      specTask_mod_400 t, Nat.add_mod_right]
  · have hp := p.isLt
    by_cases h80 : (p.val + 1) % 80 = 0
    · refine ⟨11, ?_⟩
      have h1 : tasksCalled inp s ((11 : Nat) : Int) = [Task.log] :=
        (tasksCalled_iff inp s 11).2.2.2.2.2.2.2 (by decide)
      have h2 : ¬ tasksCalled inp s ((11 + (p.val + 1) : Nat) : Int) = [Task.log] := by
        rw [(tasksCalled_iff inp s (11 + (p.val + 1))).2.2.2.2.2.2]
        omega
      rw [h1]
      exact h2
    · refine ⟨3, ?_⟩
      have h1 : tasksCalled inp s ((3 : Nat) : Int) = [Task.outputWatchdog] :=
        (tasksCalled_iff inp s 3).2.2.1.2 (by decide)
      have h2 : ¬ tasksCalled inp s ((3 + (p.val + 1) : Nat) : Int)
          = [Task.outputWatchdog] := by
        rw [(tasksCalled_iff inp s (3 + (p.val + 1))).2.2.1]
        omega
      rw [h1]
      exact h2
  · exact (tasksCalled_iff inp s 3).2.2.1.2 (by decide)
  · rw [tasksCalled_natCast]
    decide

/-- C17. Among any four consecutive ticks `t, ..., t+3` with `t ≥ 0` at least one
enters `checkShutdown`; the bound is tight, since ticks 1, 2 and 3 enter
`measureFrequency`, `readDigitalInput` and `outputWatchdog`. -/
theorem shutdown_polled_within_four_ticks (inp : Inputs) (s : State) (t : Nat) :
    (∃ k, k < 4 ∧ tasksCalled inp s ((t + k : Nat) : Int) = [Task.checkShutdown]) ∧
    tasksCalled inp s ((1 : Nat) : Int) = [Task.measureFrequency] ∧
    tasksCalled inp s ((2 : Nat) : Int) = [Task.readDigitalInput] ∧
    tasksCalled inp s ((3 : Nat) : Int) = [Task.outputWatchdog] := by
  refine ⟨?_, ?_, ?_, ?_⟩
  · obtain ⟨k, hk, hs⟩ := default_within_four (t % 400) (Nat.mod_lt t (by decide))
    refine ⟨k, hk, ?_⟩
    rw [tasksCalled_natCast, specTask_mod_400 (t + k), Nat.add_mod,
      Nat.mod_eq_of_lt (by omega : k < 400)]
    rw [hs]
  · exact (tasksCalled_iff inp s 1).1.2 (by decide)
  · exact (tasksCalled_iff inp s 2).2.1.2 (by decide)
  · exact (tasksCalled_iff inp s 3).2.2.1.2 (by decide)

/-- C18. For every negative value of `ticks` (every such value is
`Int.negSucc n`, that is `-(n+1)`), the truncating `%` yields a remainder that is
not positive, so none of the seven schedule conditions holds and the invocation
enters `checkShutdown`; and `ticks++` on `2^31 - 1` wraps to `-2^31`. -/
theorem negative_ticks_select_checkShutdown (inp : Inputs) (s : State) (n : Nat) :
    scheduleConditions (Int.negSucc n) = [false, false, false, false, false, false, false] ∧
    tasksCalled inp s (Int.negSucc n) = [Task.checkShutdown] ∧
    (incrementTicks { s with ticks := 2147483647 }).ticks = Int.negSucc 2147483647 := by
  have c20 := cMod_negSucc n 20
  have c80 := cMod_negSucc n 80
  have c10 := cMod_negSucc n 10
  have c40 := cMod_negSucc n 40
  have c100 := cMod_negSucc n 100
  simp only [Nat.cast_ofNat] at c20 c80 c10 c40 c100
  have h1 : ¬ cMod (Int.negSucc n) 20 = 1 := by omega
  have h2 : ¬ (cMod (Int.negSucc n) 20 = 2 ∨ cMod (Int.negSucc n) 20 = 8 ∨
      cMod (Int.negSucc n) 20 = 14) := by omega
  have h3 : ¬ cMod (Int.negSucc n) 80 = 3 := by omega
  have h4 : ¬ cMod (Int.negSucc n) 10 = 5 := by omega
  have h5 : ¬ cMod (Int.negSucc n) 40 = 7 := by omega
  have h6 : ¬ cMod (Int.negSucc n) 10 = 9 := by omega
  have h7 : ¬ cMod (Int.negSucc n) 100 = 11 := by omega
  refine ⟨?_, ?_, ?_⟩
  · simp only [scheduleConditions, h1, h2, h3, h4, h5, h6, h7, decide_False]
  · unfold tasksCalled CyclicExecutive
    dsimp only
    rw [if_neg h1, if_neg h2, if_neg h3, if_neg h4, if_neg h5, if_neg h6, if_neg h7]
    rw [andThen_state_calls _ (fun s1 => Outcome.returned (incrementTicks s1)) (fun _ => rfl),
      checkShutdown_calls]
    rfl
  · show wrapInt32 (2147483647 + 1) = Int.negSucc 2147483647
    decide

/-! ## Output lines at tick boundaries (C20) -/

/-- C20. For every tick `t ≥ 0` and every input, if the watchdog line and the
execution-pulse line are both 0 when `CyclicExecutive` is entered, both are 0
when the invocation returns, and also when it ends in any other way; the
watchdog task writes 1, holds 7 ms and writes 0. -/
theorem output_lines_low_at_tick_boundary (inp : Inputs) (s s' : State) (t : Nat)
    (ht : s.ticks = (t : Int)) (hw : s.watchdog = 0) (hp : s.executionPulse = 0)
    (hret : CyclicExecutive inp s = Outcome.returned s') :
    (s'.watchdog = 0 ∧ s'.executionPulse = 0) ∧
    ((CyclicExecutive inp s).state.watchdog = 0 ∧
      (CyclicExecutive inp s).state.executionPulse = 0) ∧
    (outputWatchdog inp s).state.pins =
      s.pins ++ [PinEvent.watchdog 1, PinEvent.waitMs 7, PinEvent.watchdog 0] := by
  have h := CyclicExecutive_levels inp s t ht hw hp
  refine ⟨?_, h, rfl⟩
  rw [hret] at h
  exact h

/-- Witness for C20: the watchdog tick 3 from the start-up state. -/
theorem output_lines_low_at_tick_boundary_witness :
    ({ initState with ticks := ((3 : Nat) : Int) } : State).watchdog = 0 ∧
    (CyclicExecutive inpToggle { initState with ticks := ((3 : Nat) : Int) }).state.watchdog = 0 ∧
    (CyclicExecutive inpToggle { initState with ticks := ((3 : Nat) : Int) }).state.pins =
      [PinEvent.watchdog 1, PinEvent.waitMs 7, PinEvent.watchdog 0] :=
  have h := output_lines_low_at_tick_boundary inpToggle
    { initState with ticks := ((3 : Nat) : Int) }
    (CyclicExecutive inpToggle { initState with ticks := ((3 : Nat) : Int) }).state 3
    rfl rfl rfl rfl
  ⟨rfl, h.1.1, rfl⟩

/-! ## Lemmas on `float` rounding -/

/-- Rounding to the nearest integer moves a value up by at most one half. -/
theorem roundHalfEven_sub_le (y : ℚ) : (roundHalfEven y : ℚ) ≤ y + 1 / 2 := by
  unfold roundHalfEven
  dsimp only
  have h1 := Int.floor_le y
  have h2 := Int.lt_floor_add_one y
  split_ifs with a b c
  · linarith
  · push_cast; linarith
  · linarith
  · push_cast; linarith

/-- Rounding to the nearest integer does not go below an integer lower bound. -/
theorem le_roundHalfEven (y : ℚ) (N : ℤ) (h : (N : ℚ) ≤ y) : N ≤ roundHalfEven y := by
  have hf : N ≤ ⌊y⌋ := Int.le_floor.mpr h
  unfold roundHalfEven
  dsimp only
  split_ifs <;> omega

/-- The binary exponent of a value between two consecutive powers of two. -/
theorem log2_eq_of_bounds (q : ℚ) (e : ℤ) (h1 : (2 : ℚ) ^ e ≤ q) (h2 : q < (2 : ℚ) ^ (e + 1)) :
    Int.log 2 q = e := by
  have hq : 0 < q := lt_of_lt_of_le (by positivity) h1
  have ha : e ≤ Int.log 2 q := (Int.zpow_le_iff_le_log (by norm_num) hq).1 (by exact_mod_cast h1)
  have hb : Int.log 2 q < e + 1 := (Int.lt_zpow_iff_log_lt (by norm_num) hq).1 (by exact_mod_cast h2)
  omega

/-- A value that is an integer multiple of its binary32 unit is stored unchanged. -/
theorem roundFloat32_of_grid (q : ℚ) (m : ℤ)
    (h : q / (2 : ℚ) ^ (Int.log 2 |q| - 23) = (m : ℚ)) : roundFloat32 q = q := by
  unfold roundFloat32
  split_ifs with h0
  · exact h0.symm
  · rw [h, roundHalfEven_intCast, ← h]
    have : (2 : ℚ) ^ (Int.log 2 |q| - 23) ≠ 0 := by positivity
    field_simp


/-- An even integer up to 2^25 is a binary32 value: the conversion of
`timer.read_us()*2` to `float` is exact for half-periods up to 2^24. -/
theorem roundFloat32_twice (H : ℕ) (h0 : 0 < H) (h1 : H ≤ 16777216) :
    roundFloat32 ((2 * H : ℕ) : ℚ) = ((2 * H : ℕ) : ℚ) := by
  have hq : (0 : ℚ) < ((2 * H : ℕ) : ℚ) := by exact_mod_cast (by omega : 0 < 2 * H)
  have habs : |((2 * H : ℕ) : ℚ)| = ((2 * H : ℕ) : ℚ) := abs_of_pos hq
  have hlo := Int.zpow_log_le_self (b := 2) (by norm_num) hq
  have hhi := Int.lt_zpow_succ_log_self (b := 2) (by norm_num) ((2 * H : ℕ) : ℚ)
  obtain ⟨e, he⟩ : ∃ e, Int.log 2 ((2 * H : ℕ) : ℚ) = e := ⟨_, rfl⟩
  rw [he] at hlo hhi
  have hle : ((2 * H : ℕ) : ℚ) ≤ (2 : ℚ) ^ (25 : ℤ) := by
    have : 2 * H ≤ 33554432 := by omega
    have h2 : ((2 * H : ℕ) : ℚ) ≤ ((33554432 : ℕ) : ℚ) := by exact_mod_cast this
    norm_num at h2 ⊢
    exact h2
  have hge : (2 : ℚ) ^ (1 : ℤ) ≤ ((2 * H : ℕ) : ℚ) := by
    have : 2 ≤ 2 * H := by omega
    have h2 : ((2 : ℕ) : ℚ) ≤ ((2 * H : ℕ) : ℚ) := by exact_mod_cast this
    norm_num at h2 ⊢
    exact h2
  have he1 : e ≤ 25 := by
    have := lt_of_le_of_lt hlo (lt_of_le_of_lt hle (by norm_num : (2 : ℚ) ^ (25 : ℤ) < 2 ^ (26 : ℤ)))
    have h3 := (zpow_lt_zpow_iff_right₀ (by norm_num : (1 : ℚ) < 2)).1 this
    omega
  have he0 : 1 ≤ e := by
    have := lt_of_le_of_lt hge hhi
    have h3 := (zpow_lt_zpow_iff_right₀ (by norm_num : (1 : ℚ) < 2)).1 this
    omega
  have key : ∃ m : ℤ, ((2 * H : ℕ) : ℚ) / (2 : ℚ) ^ (e - 23) = (m : ℚ) := by
    by_cases hc : e ≤ 23
    · refine ⟨((2 * H : ℕ) : ℤ) * 2 ^ (23 - e).toNat, ?_⟩
      have hpow : (2 : ℚ) ^ (e - 23) = ((2 : ℚ) ^ ((23 - e).toNat))⁻¹ := by
        rw [← zpow_natCast, ← zpow_neg]
        congr 1
        omega
      rw [hpow]
      push_cast
      field_simp
    · rcases (by omega : e = 24 ∨ e = 25) with h24 | h25
      · refine ⟨(H : ℤ), ?_⟩
        rw [h24]
        push_cast
        norm_num
      · refine ⟨8388608, ?_⟩
        rw [h25] at hlo ⊢
        have hH : (33554432 : ℚ) ≤ ((2 * H : ℕ) : ℚ) := by
          norm_num at hlo ⊢
          exact hlo
        have hH' : 33554432 ≤ 2 * H := by exact_mod_cast hH
        have hHeq : H = 16777216 := by omega
        subst hHeq
        norm_num
  obtain ⟨m, hm⟩ := key
  exact roundFloat32_of_grid _ m (by rw [habs, he]; exact hm)

/-- For a positive integer period, rounding the quotient 1000000 / period to
binary32 and truncating it to `int` gives the integer quotient: rounding never
crosses an integer, because the quotient is at most 1000000 < 2^23 when it is at
least 1, and stays below 1 otherwise. -/
theorem floatToInt_quotient (p : ℕ) (hp : 0 < p) :
    floatToInt (roundFloat32 (1000000 / (p : ℚ))) = (1000000 : ℤ) / (p : ℤ) := by
  have hpq : (0 : ℚ) < (p : ℚ) := by exact_mod_cast hp
  have hx : (0 : ℚ) < 1000000 / (p : ℚ) := by positivity
  have hx0 : (1000000 / (p : ℚ)) ≠ 0 := ne_of_gt hx
  have habs : |1000000 / (p : ℚ)| = 1000000 / (p : ℚ) := abs_of_pos hx
  obtain ⟨e, he⟩ : ∃ e, Int.log 2 (1000000 / (p : ℚ)) = e := ⟨_, rfl⟩
  have hlo := Int.zpow_log_le_self (b := 2) (by norm_num) hx
  rw [he] at hlo
  -- the quotient is at most 10^6 < 2^20
  have hxle : 1000000 / (p : ℚ) ≤ 1000000 := by
    rw [div_le_iff₀ hpq]
    have : (1 : ℚ) ≤ p := by exact_mod_cast hp
    nlinarith
  have he19 : e ≤ 19 := by
    have : (2 : ℚ) ^ e < (2 : ℚ) ^ (20 : ℤ) := lt_of_le_of_lt (le_trans hlo hxle) (by norm_num)
    have h3 := (zpow_lt_zpow_iff_right₀ (by norm_num : (1 : ℚ) < 2)).1 this
    omega
  -- integer quotient and remainder
  set K : ℤ := (1000000 : ℤ) / (p : ℤ) with hK
  have hpz : (0 : ℤ) < (p : ℤ) := by exact_mod_cast hp
  have hdiv := Int.emod_add_ediv 1000000 (p : ℤ)
  have hr0 := Int.emod_nonneg 1000000 (ne_of_gt hpz)
  have hr1 := Int.emod_lt_of_pos 1000000 hpz
  have hK0 : 0 ≤ K := Int.ediv_nonneg (by norm_num) (le_of_lt hpz)
  have hKx : (K : ℚ) ≤ 1000000 / (p : ℚ) := by
    rw [le_div_iff₀ hpq]
    have : K * (p : ℤ) ≤ 1000000 := by nlinarith
    exact_mod_cast this
  have hxK : 1000000 / (p : ℚ) + 1 / (p : ℚ) ≤ (K : ℚ) + 1 := by
    rw [← add_div, div_le_iff₀ hpq]
    have : (1000000 : ℤ) + 1 ≤ (K + 1) * (p : ℤ) := by nlinarith
    exact_mod_cast this
  -- the spacing of the grid around the quotient
  have hu : (0 : ℚ) < (2 : ℚ) ^ (e - 23) := by positivity
  have hpow : (2 : ℚ) ^ (e - 23) = ((2 : ℚ) ^ ((23 - e).toNat))⁻¹ := by
    rw [← zpow_natCast, ← zpow_neg]
    congr 1
    omega
  have hu2 : (2 : ℚ) ^ (e - 23) = (2 : ℚ) ^ e / 8388608 := by
    rw [zpow_sub₀ (by norm_num : (2 : ℚ) ≠ 0)]
    norm_num
  have hule : (2 : ℚ) ^ (e - 23) ≤ (1000000 / (p : ℚ)) / 8388608 := by
    rw [hu2]
    exact div_le_div_of_nonneg_right hlo (by norm_num)
  -- lower bound: the integer part lies on the grid
  have hlow : (K : ℚ) ≤
      (roundHalfEven (1000000 / (p : ℚ) / (2 : ℚ) ^ (e - 23)) : ℚ) * (2 : ℚ) ^ (e - 23) := by
    have hgrid : ((K * 2 ^ (23 - e).toNat : ℤ) : ℚ)
        ≤ 1000000 / (p : ℚ) / (2 : ℚ) ^ (e - 23) := by
      rw [hpow, div_inv_eq_mul]
      push_cast
      exact mul_le_mul_of_nonneg_right hKx (by positivity)
    have hm := le_roundHalfEven _ _ hgrid
    have hm' : ((K * 2 ^ (23 - e).toNat : ℤ) : ℚ)
        ≤ (roundHalfEven (1000000 / (p : ℚ) / (2 : ℚ) ^ (e - 23)) : ℚ) := by exact_mod_cast hm
    have hmul := mul_le_mul_of_nonneg_right hm' (le_of_lt hu)
    have heq : ((K * 2 ^ (23 - e).toNat : ℤ) : ℚ) * (2 : ℚ) ^ (e - 23) = (K : ℚ) := by
      rw [hpow]
      push_cast
      field_simp
    rw [heq] at hmul
    exact hmul
  -- upper bound: half a grid step is less than the distance to the next integer
  have hupp : (roundHalfEven (1000000 / (p : ℚ) / (2 : ℚ) ^ (e - 23)) : ℚ) * (2 : ℚ) ^ (e - 23)
      < (K : ℚ) + 1 := by
    have hm := roundHalfEven_sub_le (1000000 / (p : ℚ) / (2 : ℚ) ^ (e - 23))
    have hmul := mul_le_mul_of_nonneg_right hm (le_of_lt hu)
    have heq : (1000000 / (p : ℚ) / (2 : ℚ) ^ (e - 23) + 1 / 2) * (2 : ℚ) ^ (e - 23)
        = 1000000 / (p : ℚ) + (2 : ℚ) ^ (e - 23) / 2 := by
      field_simp
      ring
    rw [heq] at hmul
    have hsmall : (1000000 / (p : ℚ)) / 8388608 / 2 < 1 / (p : ℚ) := by
      have h1p : (0 : ℚ) < 1 / (p : ℚ) := by positivity
      have hrw : (1000000 / (p : ℚ)) / 8388608 / 2 = (1000000 / 16777216) * (1 / (p : ℚ)) := by
        field_simp
        ring
      rw [hrw]
      nlinarith
    linarith
  unfold floatToInt roundFloat32
  rw [if_neg hx0, habs, he]
  rw [if_pos (le_trans (by exact_mod_cast hK0) hlow)]
  exact Int.floor_eq_iff.2 ⟨hlow, hupp⟩


/-- The integer 2^25 + 2 lies half-way between the binary32 neighbours 2^25 and
2^25 + 4 and is rounded to the even one, 2^25. -/
theorem roundFloat32_tie : roundFloat32 33554434 = 33554432 := by
  have hlog : Int.log 2 |(33554434 : ℚ)| = 25 := by
    rw [abs_of_pos (by norm_num)]
    exact log2_eq_of_bounds _ _ (by norm_num) (by norm_num)
  have hfl : ⌊(16777217 / 2 : ℚ)⌋ = 8388608 := by
    rw [Int.floor_eq_iff]
    constructor <;> norm_num
  have hr : roundHalfEven (16777217 / 2) = 8388608 := by
    unfold roundHalfEven
    dsimp only
    rw [hfl]
    norm_num
  unfold roundFloat32
  rw [if_neg (by norm_num), hlog]
  have hq : (33554434 : ℚ) / (2 : ℚ) ^ ((25 : ℤ) - 23) = 16777217 / 2 := by norm_num
  rw [hq, hr]
  norm_num

/-- The integer -2^31 is a binary32 value. -/
theorem roundFloat32_minInt : roundFloat32 (-2147483648) = -2147483648 := by
  have hlog : Int.log 2 |(-2147483648 : ℚ)| = 31 := by
    rw [abs_of_neg (by norm_num)]
    exact log2_eq_of_bounds _ _ (by norm_num) (by norm_num)
  refine roundFloat32_of_grid _ (-8388608) ?_
  rw [hlog]
  norm_num

/-- Lines 126-131 for a half-period between 1 and 2^24 microseconds. -/
theorem storeFrequency_exact (inp : Inputs) (s : State)
    (hH : 0 < inp.timerUs) (hH2 : inp.timerUs ≤ 16777216) :
    ∃ s', storeFrequency inp s = Outcome.returned s' ∧
      s'.period = 2 * (inp.timerUs : ℚ) ∧
      s'.frequency = 1000000 / (2 * inp.timerUs) := by
  obtain ⟨h, hh⟩ : ∃ h : Nat, inp.timerUs = (h : Int) := ⟨inp.timerUs.toNat, by omega⟩
  have hw : wrapInt32 (inp.timerUs * 2) = ((2 * h : ℕ) : ℤ) := by
    unfold wrapInt32
    push_cast
    omega
  have hper : roundFloat32 ((wrapInt32 (inp.timerUs * 2) : ℤ) : ℚ) = ((2 * h : ℕ) : ℚ) := by
    rw [hw, Int.cast_natCast]
    exact roundFloat32_twice h (by omega) (by omega)
  have hne : ((2 * h : ℕ) : ℚ) ≠ 0 := by
    have : 2 * h ≠ 0 := by omega
    exact_mod_cast this
  unfold storeFrequency
  dsimp only
  refine ⟨_, rfl, ?_, ?_⟩
  · show roundFloat32 ((wrapInt32 (inp.timerUs * 2) : ℤ) : ℚ) = 2 * (inp.timerUs : ℚ)
    rw [hper, hh]
    push_cast
    ring
  · show (if roundFloat32 ((wrapInt32 (inp.timerUs * 2) : ℤ) : ℚ) = 0 then inp.infToInt
      else floatToInt (roundFloat32
        (1000000 / roundFloat32 ((wrapInt32 (inp.timerUs * 2) : ℤ) : ℚ)))) = _
    rw [hper, if_neg hne, floatToInt_quotient (2 * h) (by omega), hh]
    push_cast
    rfl

/-- Lines 126-131 for an elapsed value of zero: no test of `period` precedes the
division, the three assignments are made and the task returns. -/
theorem storeFrequency_zero (inp : Inputs) (s : State) (hH : inp.timerUs = 0) :
    ∃ s', storeFrequency inp s = Outcome.returned s' ∧
      s'.period = 0 ∧ s'.frequency = inp.infToInt ∧ s'.exec1 = (inp.execUs : ℚ) := by
  have hper : roundFloat32 ((wrapInt32 (inp.timerUs * 2) : ℤ) : ℚ) = 0 := by
    rw [hH]
    have : wrapInt32 (0 * 2) = 0 := by decide
    rw [this]
    simp [roundFloat32]
  unfold storeFrequency
  dsimp only
  refine ⟨_, rfl, hper, ?_, rfl⟩
  show (if roundFloat32 ((wrapInt32 (inp.timerUs * 2) : ℤ) : ℚ) = 0 then inp.infToInt
      else _) = _
  rw [if_pos hper]

/-! ## Period and frequency (C9) -/

/-- C9 (amended). For every timed half-period `H = inp.timerUs` with
`0 < H ≤ 2^24` microseconds, and for every wave that leaves its entry level and
later returns to it within the poll budget (entered low or entered high alike),
`measureFrequency` returns with `period = 2*H` and
`frequency = 1000000 / (2*H)` truncated to an integer. The `int` product, its
conversion to `float`, the `float` division and the conversion to `int` are all
modelled with their rounding. -/
theorem measureFrequency_period_and_frequency (inp : Inputs) (s : State) (i j : Nat)
    (hH : 0 < inp.timerUs) (hH2 : inp.timerUs ≤ 16777216)
    (hi : 1 ≤ i) (hij : i < j) (hj : j ≤ inp.pollFuel)
    (hwi : inp.wave i ≠ inp.wave 0) (hwj : inp.wave j = inp.wave 0) :
    ∃ s', measureFrequency inp s = Outcome.returned s' ∧
      s'.period = 2 * (inp.timerUs : ℚ) ∧
      s'.frequency = 1000000 / (2 * inp.timerUs) := by
  rw [measureFrequency_after_two_edges inp s i j hi hij hj hwi hwj]
  exact storeFrequency_exact inp (s.enter Task.measureFrequency) hH hH2

/-- Witness for C9: a wave that toggles at every poll, half-period 10000 us. -/
theorem measureFrequency_period_and_frequency_witness :
    (0 < inpToggle.timerUs ∧ inpToggle.timerUs ≤ 16777216) ∧
    ∃ s', measureFrequency inpToggle initState = Outcome.returned s' ∧
      s'.period = 2 * (inpToggle.timerUs : ℚ) ∧
      s'.frequency = 1000000 / (2 * inpToggle.timerUs) :=
  ⟨⟨by decide, by decide⟩,
    measureFrequency_period_and_frequency inpToggle initState 1 2 (by decide) (by decide)
      (by decide) (by decide) (by decide) (by decide) (by decide)⟩

/-- Counterexample to C9 as stated: at `H = 2^24 + 1` the product 33554434 is
not a binary32 value and `period` receives 33554432; at `H = 2^30` the `int`
product wraps and `period` receives -2147483648. In both cases `H > 0` and
`period ≠ 2*H`. -/
theorem measureFrequency_period_not_twice :
    (0 < inpRounding.timerUs ∧
      ∃ s', measureFrequency inpRounding initState = Outcome.returned s' ∧
        s'.period = 33554432 ∧ s'.period ≠ 2 * (inpRounding.timerUs : ℚ)) ∧
    (0 < inpOverflow.timerUs ∧
      ∃ s', measureFrequency inpOverflow initState = Outcome.returned s' ∧
        s'.period = -2147483648 ∧ s'.period ≠ 2 * (inpOverflow.timerUs : ℚ)) := by
  constructor
  · refine ⟨by decide, ?_⟩
    rw [measureFrequency_after_two_edges inpRounding initState 1 2 (by decide) (by decide)
      (by decide) (by decide) (by decide)]
    have hw : wrapInt32 (inpRounding.timerUs * 2) = 33554434 := by decide
    have hper : roundFloat32 ((wrapInt32 (inpRounding.timerUs * 2) : ℤ) : ℚ) = 33554432 := by
      rw [hw]
      exact_mod_cast roundFloat32_tie
    refine ⟨_, rfl, hper, ?_⟩
    show roundFloat32 ((wrapInt32 (inpRounding.timerUs * 2) : ℤ) : ℚ) ≠ _
    rw [hper]
    simp only [inpRounding]
    norm_num
  · refine ⟨by decide, ?_⟩
    rw [measureFrequency_after_two_edges inpOverflow initState 1 2 (by decide) (by decide)
      (by decide) (by decide) (by decide)]
    have hw : wrapInt32 (inpOverflow.timerUs * 2) = -2147483648 := by decide
    have hper : roundFloat32 ((wrapInt32 (inpOverflow.timerUs * 2) : ℤ) : ℚ)
        = -2147483648 := by
      rw [hw]
      exact_mod_cast roundFloat32_minInt
    refine ⟨_, rfl, hper, ?_⟩
    show roundFloat32 ((wrapInt32 (inpOverflow.timerUs * 2) : ℤ) : ℚ) ≠ _
    rw [hper]
    simp only [inpOverflow]
    norm_num

/-! ## Zero elapsed time (C10) -/

/-- C10 (amended). When the timed elapsed value is zero, `measureFrequency`
does not guard the division: it stores `period = 0`, overwrites `frequency`
with the conversion to `int` of the infinite quotient 1000000 / 0.0f (whatever
value `inp.infToInt` the platform yields for it), writes `exec1` and returns. -/
theorem measureFrequency_zero_elapsed (inp : Inputs) (s : State) (i j : Nat)
    (hH : inp.timerUs = 0)
    (hi : 1 ≤ i) (hij : i < j) (hj : j ≤ inp.pollFuel)
    (hwi : inp.wave i ≠ inp.wave 0) (hwj : inp.wave j = inp.wave 0) :
    ∃ s', measureFrequency inp s = Outcome.returned s' ∧
      s'.period = 0 ∧ s'.frequency = inp.infToInt ∧ s'.exec1 = (inp.execUs : ℚ) := by
  rw [measureFrequency_after_two_edges inp s i j hi hij hj hwi hwj]
  exact storeFrequency_zero inp (s.enter Task.measureFrequency) hH

/-- Witness for C10: elapsed value 0, entered with frequency 50. -/
theorem measureFrequency_zero_elapsed_witness :
    inpZero.timerUs = 0 ∧
    ∃ s', measureFrequency inpZero { initState with frequency := 50 } = Outcome.returned s' ∧
      s'.period = 0 ∧ s'.frequency = inpZero.infToInt ∧ s'.exec1 = (inpZero.execUs : ℚ) :=
  ⟨rfl, measureFrequency_zero_elapsed inpZero { initState with frequency := 50 } 1 2 rfl
    (by decide) (by decide) (by decide) (by decide) (by decide)⟩

/-- Counterexample to C10 as stated: with an elapsed value of zero the
`frequency` field is overwritten by the converted infinite quotient, 2147483647
where the conversion saturates and -2147483648 where it yields the "integer
indefinite" value; no designated sentinel is stored and nothing is tested. -/
theorem measureFrequency_no_guard_at_zero :
    (∃ s', measureFrequency inpZero initState = Outcome.returned s' ∧
      s'.period = 0 ∧ s'.frequency = 2147483647) ∧
    (∃ s', measureFrequency inpZeroHost initState = Outcome.returned s' ∧
      s'.period = 0 ∧ s'.frequency = -2147483648) := by
  constructor
  · rw [measureFrequency_after_two_edges inpZero initState 1 2 (by decide) (by decide)
      (by decide) (by decide) (by decide)]
    obtain ⟨s', h1, h2, h3, _⟩ := storeFrequency_zero inpZero
      (initState.enter Task.measureFrequency) rfl
    exact ⟨s', h1, h2, h3⟩
  · rw [measureFrequency_after_two_edges inpZeroHost initState 1 2 (by decide) (by decide)
      (by decide) (by decide) (by decide)]
    obtain ⟨s', h1, h2, h3, _⟩ := storeFrequency_zero inpZeroHost
      (initState.enter Task.measureFrequency) rfl
    exact ⟨s', h1, h2, h3⟩

/-! ## Blocking wait (C15) -/

/-- C15. With the wave line as an infinite sequence of samples,
`measureFrequency` returns for some finite poll budget if and only if the line
leaves its entry level and later returns to it; the value timed plays no part.
For a line stuck at `b` every poll budget ends stalled, so the invocation at a
tick `20k+1` does not return and the run stops there with the tick counter
unchanged, whatever inputs follow. -/
theorem measureFrequency_returns_iff_two_edges (inp : Inputs) (s : State) (b : Bool)
    (fuel k : Nat) (rest : List Inputs) :
    ((∃ n s', measureFrequency { inp with pollFuel := n } s = Outcome.returned s') ↔
      twoEdges inp.wave) ∧
    measureFrequency { inp with wave := fun _ => b, pollFuel := fuel } s
      = Outcome.stalled (s.enter Task.measureFrequency) ∧
    runTicks ({ inp with wave := fun _ => b, pollFuel := fuel } :: rest)
        { s with ticks := ((20 * k + 1 : Nat) : Int) }
      = Outcome.stalled
          ({ s with ticks := ((20 * k + 1 : Nat) : Int) }.enter Task.measureFrequency) := by
  refine ⟨⟨?_, ?_⟩, measureFrequency_stuck inp s b fuel, ?_⟩
  · rintro ⟨n, s', hn⟩
    have hns : (measureFrequency { inp with pollFuel := n } s).isStalled = false := by
      rw [hn]; rfl
    exact measureFrequency_not_stalled_twoEdges { inp with pollFuel := n } s hns
  · rintro ⟨i, j, hi, hij, hwi, hwj⟩
    obtain ⟨s', hs'⟩ : ∃ s', storeFrequency { inp with pollFuel := j }
        (s.enter Task.measureFrequency) = Outcome.returned s' := ⟨_, rfl⟩
    refine ⟨j, s', ?_⟩
    rw [measureFrequency_after_two_edges { inp with pollFuel := j } s i j hi hij (le_refl _)
      hwi hwj]
    exact hs'
  · unfold runTicks
    rw [CyclicExecutive_natCast _ _ (20 * k + 1) rfl, if_pos (by omega),
      measureFrequency_stuck]
    rfl

/-! ## Lemmas on the chronological record -/

/-- Lines 126-131 write no output line. -/
theorem storeFrequency_trace (inp : Inputs) (s : State) :
    (storeFrequency inp s).state.trace = s.trace ++ [Event.leave Task.measureFrequency] := rfl

/-- The frequency task does not write the execution-pulse line. -/
theorem measureFrequency_no_pulse (inp : Inputs) (s : State) :
    (measureFrequency inp s).state.trace.filter Event.isExecutionPulse
      = s.trace.filter Event.isExecutionPulse := by
  rcases measureFrequency_cases inp s with h | h
  · rw [h]
    simp [Outcome.state, State.enter, List.filter_append, Event.isExecutionPulse]
  · rw [h, storeFrequency_trace]
    simp [State.enter, List.filter_append, Event.isExecutionPulse]

/-- The analogue task does not write the execution-pulse line. -/
theorem readAnalogueInput_no_pulse (inp : Inputs) (s : State) :
    (readAnalogueInput inp s).state.trace.filter Event.isExecutionPulse
      = s.trace.filter Event.isExecutionPulse := by
  rw [readAnalogueInput_eq]
  simp [Outcome.state, State.enter, List.filter_append, Event.isExecutionPulse]

/-- The shutdown check does not write the execution-pulse line. -/
theorem checkShutdown_no_pulse (inp : Inputs) (s : State) :
    (checkShutdown inp s).state.trace.filter Event.isExecutionPulse
      = s.trace.filter Event.isExecutionPulse := by
  unfold checkShutdown
  dsimp only
  split_ifs <;>
    simp [Outcome.state, State.enter, State.leave, State.lcdWrite, List.filter_append,
      Event.isExecutionPulse]

/-! ## Execution pulse (C13) -/

/-- C13. For every tick `t ≥ 0` the invocation enters `errorCodes` iff
`t mod 10 = 9`; the execution-pulse writes of the invocation are 1 then 0 in that
case and none otherwise. In the case `t mod 10 = 9` the chronological record of
the whole invocation is: pulse 1, entry of `errorCodes`, its two display
operations, its return, pulse 0; so the 1 precedes the body and the 0 follows its
return. At every other tick no record of the invocation is a pulse write and the
line keeps its level. -/
theorem execution_pulse_brackets_errorCodes (inp : Inputs) (s : State) (t : Nat) :
    (tasksCalled inp s (t : Int) = [Task.errorCodes] ↔ t % 10 = 9) ∧
    (pinsWritten inp s (t : Int)).filter PinEvent.isExecutionPulse =
      (if t % 10 = 9 then [PinEvent.executionPulse 1, PinEvent.executionPulse 0] else []) ∧
    (if t % 10 = 9 then
      traceWritten inp s (t : Int) =
        [Event.pin (PinEvent.executionPulse 1),
         Event.enter Task.errorCodes,
         Event.lcd (LcdOp.locate 0 13),
         Event.lcd (LcdOp.print
           (if s.switch_1 = 1 ∧ s.average_analogue_in_1 > s.average_analogue_in_2
            then "E:3" else "E:0")),
         Event.leave Task.errorCodes,
         Event.pin (PinEvent.executionPulse 0)]
    else
      (traceWritten inp s (t : Int)).filter Event.isExecutionPulse = [] ∧
      (CyclicExecutive inp { s with ticks := (t : Int) }).state.executionPulse
        = s.executionPulse) := by
  refine ⟨(tasksCalled_iff inp s t).2.2.2.2.2.1, ?_, ?_⟩
  · unfold pinsWritten
    rw [CyclicExecutive_outputs inp _ t rfl]
    split_ifs <;> first | rfl | omega
  · by_cases h9 : t % 10 = 9
    · rw [if_pos h9]
      unfold traceWritten
      rw [CyclicExecutive_natCast inp _ t rfl, if_neg (by omega), if_neg (by omega),
        if_neg (by omega), if_neg (by omega), if_neg (by omega), if_pos h9]
      unfold errorCodes
      by_cases hc : s.switch_1 = 1 ∧ s.average_analogue_in_1 > s.average_analogue_in_2
      · simp [hc, Outcome.andThen, Outcome.state, incrementTicks, writeExecutionPulse,
          State.enter, State.leave, State.lcdWrite, State.pinWrite]
      · simp [hc, Outcome.andThen, Outcome.state, incrementTicks, writeExecutionPulse,
          State.enter, State.leave, State.lcdWrite, State.pinWrite]
    · rw [if_neg h9]
      have hincr : ∀ o : Outcome,
          (o.andThen (fun s1 => Outcome.returned (incrementTicks s1))).state.trace
            = o.state.trace ∧
          (o.andThen (fun s1 => Outcome.returned (incrementTicks s1))).state.executionPulse
            = o.state.executionPulse := by
        intro o
        cases o <;> exact ⟨rfl, rfl⟩
      unfold traceWritten
      rw [CyclicExecutive_natCast inp _ t rfl, CyclicExecutive_natCast inp _ t rfl,
        (hincr _).1, (hincr _).2]
      split_ifs
      · exact ⟨measureFrequency_no_pulse inp _, (measureFrequency_outputs inp _).2.2⟩
      · exact ⟨rfl, rfl⟩
      · exact ⟨rfl, rfl⟩
      · exact ⟨readAnalogueInput_no_pulse inp _, (readAnalogueInput_outputs inp _).2.2⟩
      · exact ⟨rfl, rfl⟩
      · exact ⟨rfl, rfl⟩
      · exact ⟨checkShutdown_no_pulse inp _, (checkShutdown_outputs inp _).2.2⟩

/-! ## Lemmas on the filtered values -/

end CyclicExec
